import Mathlib

/-!
# Hamustro: the ingest-to-sink pipeline

A shallow embedding of the Go sources of the event-ingestion gateway:
`main.go` (signature and session derivation, `BroadcastError`, `TrackHandler`),
`dialects/event.go` (`ConvertIsoformat`, `Event`, `NewEvent`, `GetJSONMessage`)
together with the library routines these call (MD5, SHA-256, hex, base64,
the `net/http` response writer, `encoding/json` for the `Event` struct and the
calendar arithmetic of `time.Format`).

Go strings and byte slices are byte sequences (`Bytes`); 32-bit words of the
hash functions are natural numbers reduced modulo `2^32`.
-/

namespace Hamustro

/-! ## Bytes and strings -/

/-- A Go `string` or `[]byte`: a finite sequence of bytes. -/
abbrev Bytes := List UInt8

/-- The bytes of a string literal (Go source text is UTF-8). -/
def bytesOf (s : String) : Bytes := s.data.flatMap String.utf8EncodeChar

/-- The byte of an ASCII character. -/
def byteOf (c : Char) : UInt8 := UInt8.ofNat c.toNat

/-! ## encoding/hex -/

/-- The table `hextable = "0123456789abcdef"` of `encoding/hex`. -/
def hextable : Bytes := bytesOf "0123456789abcdef"

/-- One hexadecimal digit: `hextable[n]`, for a nibble `n`. -/
def hexDigit (n : Nat) : UInt8 := hextable.getD (n % 16) 0

/-- Library call `hex.EncodeToString`: two lowercase digits per byte, high nibble first. -/
def hexEncode : Bytes → Bytes
  | [] => []
  | b :: rest => hexDigit (b.toNat >>> 4) :: hexDigit (b.toNat &&& 15) :: hexEncode rest

/-! ## encoding/base64 (StdEncoding) -/

/-- The standard alphabet of `base64.StdEncoding`. -/
def encodeStd : Bytes :=
  bytesOf "ABCDEFGHIJKLMNOPQRSTUVWXYZabcdefghijklmnopqrstuvwxyz0123456789+/"

/-- The padding character of `base64.StdEncoding`, the byte of `=`. -/
def stdPadding : UInt8 := 61

/-- One base64 digit: `enc.encode[v & 0x3F]`. -/
def b64Digit (v : Nat) : UInt8 := encodeStd.getD (v &&& 63) 0

/-- Library call `base64.StdEncoding.EncodeToString`: every 3 input bytes give 4 digits; a
remainder of 1 byte gives 2 digits and `==`, a remainder of 2 bytes gives 3
digits and `=`. -/
def base64Encode : Bytes → Bytes
  | [] => []
  | [a] =>
    let v := a.toNat <<< 16
    [b64Digit (v >>> 18), b64Digit (v >>> 12), stdPadding, stdPadding]
  | [a, b] =>
    let v := (a.toNat <<< 16) ||| (b.toNat <<< 8)
    [b64Digit (v >>> 18), b64Digit (v >>> 12), b64Digit (v >>> 6), stdPadding]
  | a :: b :: c :: rest =>
    let v := (a.toNat <<< 16) ||| (b.toNat <<< 8) ||| c.toNat
    b64Digit (v >>> 18) :: b64Digit (v >>> 12) :: b64Digit (v >>> 6) :: b64Digit v ::
      base64Encode rest

/-! ## 32-bit word arithmetic -/

/-- Reduction of a natural number to a 32-bit word. -/
def w32 (x : Nat) : Nat := x % 4294967296

/-- Bitwise complement of a 32-bit word. -/
def not32 (x : Nat) : Nat := 4294967295 - w32 x

/-- Rotate a 32-bit word left by `n` bits (`0 < n < 32`). -/
def rotl32 (x n : Nat) : Nat := w32 (w32 x <<< n) ||| (w32 x >>> (32 - n))

/-- Rotate a 32-bit word right by `n` bits (`0 < n < 32`). -/
def rotr32 (x n : Nat) : Nat := (w32 x >>> n) ||| w32 (w32 x <<< (32 - n))

/-- The byte number `i` (0 is least significant) of a word. -/
def byteAt (x i : Nat) : UInt8 := UInt8.ofNat ((x >>> (8 * i)) % 256)

/-- The blocks of 64 bytes of a message whose length is a multiple of 64. -/
def blocks64 (p : Bytes) : List Bytes :=
  (List.range (p.length / 64)).map (fun i => (p.drop (64 * i)).take 64)

/-- Number of zero bytes between the `0x80` marker and the 8-byte length so
that the padded message is a whole number of 64-byte blocks. -/
def padZeros (len : Nat) : Nat := (64 - (len + 9) % 64) % 64

/-! ## crypto/md5 (RFC 1321) -/

/-- Per-round shift amounts of MD5. -/
def md5S : List Nat :=
  [7, 12, 17, 22, 7, 12, 17, 22, 7, 12, 17, 22, 7, 12, 17, 22,
   5, 9, 14, 20, 5, 9, 14, 20, 5, 9, 14, 20, 5, 9, 14, 20,
   4, 11, 16, 23, 4, 11, 16, 23, 4, 11, 16, 23, 4, 11, 16, 23,
   6, 10, 15, 21, 6, 10, 15, 21, 6, 10, 15, 21, 6, 10, 15, 21]

/-- The sine table of MD5: `floor(2^32 * |sin(i + 1)|)`. -/
def md5K : List Nat :=
  [0xd76aa478, 0xe8c7b756, 0x242070db, 0xc1bdceee,
   0xf57c0faf, 0x4787c62a, 0xa8304613, 0xfd469501,
   0x698098d8, 0x8b44f7af, 0xffff5bb1, 0x895cd7be,
   0x6b901122, 0xfd987193, 0xa679438e, 0x49b40821,
   0xf61e2562, 0xc040b340, 0x265e5a51, 0xe9b6c7aa,
   0xd62f105d, 0x02441453, 0xd8a1e681, 0xe7d3fbc8,
   0x21e1cde6, 0xc33707d6, 0xf4d50d87, 0x455a14ed,
   0xa9e3e905, 0xfcefa3f8, 0x676f02d9, 0x8d2a4c8a,
   0xfffa3942, 0x8771f681, 0x6d9d6122, 0xfde5380c,
   0xa4beea44, 0x4bdecfa9, 0xf6bb4b60, 0xbebfbc70,
   0x289b7ec6, 0xeaa127fa, 0xd4ef3085, 0x04881d05,
   0xd9d4d039, 0xe6db99e5, 0x1fa27cf8, 0xc4ac5665,
   0xf4292244, 0x432aff97, 0xab9423a7, 0xfc93a039,
   0x655b59c3, 0x8f0ccc92, 0xffeff47d, 0x85845dd1,
   0x6fa87e4f, 0xfe2ce6e0, 0xa3014314, 0x4e0811a1,
   0xf7537e82, 0xbd3af235, 0x2ad7d2bb, 0xeb86d391]

/-- The chaining value of MD5: four 32-bit words. -/
structure Md5State where
  a : Nat
  b : Nat
  c : Nat
  d : Nat
  deriving DecidableEq, Repr

/-- The initial chaining value of MD5. -/
def md5Init : Md5State := ⟨0x67452301, 0xefcdab89, 0x98badcfe, 0x10325476⟩

/-- The 16 little-endian words of a 64-byte block. -/
def leWords (blk : Bytes) : List Nat :=
  (List.range 16).map (fun i =>
    (blk.getD (4 * i) 0).toNat ||| ((blk.getD (4 * i + 1) 0).toNat <<< 8) |||
      ((blk.getD (4 * i + 2) 0).toNat <<< 16) ||| ((blk.getD (4 * i + 3) 0).toNat <<< 24))

/-- One of the 64 steps of the MD5 compression function. -/
def md5Step (m : List Nat) (s : Md5State) (i : Nat) : Md5State :=
  let f :=
    if i < 16 then (s.b &&& s.c) ||| (not32 s.b &&& s.d)
    else if i < 32 then (s.d &&& s.b) ||| (not32 s.d &&& s.c)
    else if i < 48 then s.b ^^^ s.c ^^^ s.d
    else s.c ^^^ (s.b ||| not32 s.d)
  let g :=
    if i < 16 then i
    else if i < 32 then (5 * i + 1) % 16
    else if i < 48 then (3 * i + 5) % 16
    else (7 * i) % 16
  let t := w32 (f + s.a + md5K.getD i 0 + m.getD g 0)
  ⟨s.d, w32 (s.b + rotl32 t (md5S.getD i 0)), s.b, s.c⟩

/-- The MD5 compression function on one block. -/
def md5Block (s : Md5State) (blk : Bytes) : Md5State :=
  let r := (List.range 64).foldl (md5Step (leWords blk)) s
  ⟨w32 (s.a + r.a), w32 (s.b + r.b), w32 (s.c + r.c), w32 (s.d + r.d)⟩

/-- MD5 padding: `0x80`, zeros, and the bit length as 8 little-endian bytes. -/
def md5Pad (msg : Bytes) : Bytes :=
  msg ++ [128] ++ List.replicate (padZeros msg.length) 0 ++
    (List.range 8).map (fun i => byteAt (8 * msg.length % 18446744073709551616) i)

/-- The four bytes of a word, least significant first. -/
def leBytes (x : Nat) : Bytes := [byteAt x 0, byteAt x 1, byteAt x 2, byteAt x 3]

/-- The MD5 digest (16 bytes) of a message. -/
def md5 (msg : Bytes) : Bytes :=
  let s := (blocks64 (md5Pad msg)).foldl md5Block md5Init
  leBytes s.a ++ leBytes s.b ++ leBytes s.c ++ leBytes s.d

/-! ## crypto/sha256 (FIPS 180-4) -/

/-- The round constants of SHA-256. -/
def sha256K : List Nat :=
  [0x428a2f98, 0x71374491, 0xb5c0fbcf, 0xe9b5dba5,
   0x3956c25b, 0x59f111f1, 0x923f82a4, 0xab1c5ed5,
   0xd807aa98, 0x12835b01, 0x243185be, 0x550c7dc3,
   0x72be5d74, 0x80deb1fe, 0x9bdc06a7, 0xc19bf174,
   0xe49b69c1, 0xefbe4786, 0x0fc19dc6, 0x240ca1cc,
   0x2de92c6f, 0x4a7484aa, 0x5cb0a9dc, 0x76f988da,
   0x983e5152, 0xa831c66d, 0xb00327c8, 0xbf597fc7,
   0xc6e00bf3, 0xd5a79147, 0x06ca6351, 0x14292967,
   0x27b70a85, 0x2e1b2138, 0x4d2c6dfc, 0x53380d13,
   0x650a7354, 0x766a0abb, 0x81c2c92e, 0x92722c85,
   0xa2bfe8a1, 0xa81a664b, 0xc24b8b70, 0xc76c51a3,
   0xd192e819, 0xd6990624, 0xf40e3585, 0x106aa070,
   0x19a4c116, 0x1e376c08, 0x2748774c, 0x34b0bcb5,
   0x391c0cb3, 0x4ed8aa4a, 0x5b9cca4f, 0x682e6ff3,
   0x748f82ee, 0x78a5636f, 0x84c87814, 0x8cc70208,
   0x90befffa, 0xa4506ceb, 0xbef9a3f7, 0xc67178f2]

/-- The chaining value of SHA-256: eight 32-bit words. -/
structure Sha256State where
  h0 : Nat
  h1 : Nat
  h2 : Nat
  h3 : Nat
  h4 : Nat
  h5 : Nat
  h6 : Nat
  h7 : Nat
  deriving DecidableEq, Repr

/-- The initial chaining value of SHA-256. -/
def sha256Init : Sha256State :=
  ⟨0x6a09e667, 0xbb67ae85, 0x3c6ef372, 0xa54ff53a,
   0x510e527f, 0x9b05688c, 0x1f83d9ab, 0x5be0cd19⟩

/-- The 16 big-endian words of a 64-byte block. -/
def beWords (blk : Bytes) : List Nat :=
  (List.range 16).map (fun i =>
    ((blk.getD (4 * i) 0).toNat <<< 24) ||| ((blk.getD (4 * i + 1) 0).toNat <<< 16) |||
      ((blk.getD (4 * i + 2) 0).toNat <<< 8) ||| (blk.getD (4 * i + 3) 0).toNat)

/-- The message schedule of SHA-256: extends the 16 block words to 64. -/
def sha256Schedule (blk : Bytes) : List Nat :=
  (List.range 48).foldl (fun w j =>
    let i := j + 16
    let x := w.getD (i - 15) 0
    let y := w.getD (i - 2) 0
    let s0 := rotr32 x 7 ^^^ rotr32 x 18 ^^^ (x >>> 3)
    let s1 := rotr32 y 17 ^^^ rotr32 y 19 ^^^ (y >>> 10)
    w ++ [w32 (w.getD (i - 16) 0 + s0 + w.getD (i - 7) 0 + s1)]) (beWords blk)

/-- One of the 64 rounds of the SHA-256 compression function. -/
def sha256Step (w : List Nat) (s : Sha256State) (i : Nat) : Sha256State :=
  let e := s.h4
  let a := s.h0
  let s1 := rotr32 e 6 ^^^ rotr32 e 11 ^^^ rotr32 e 25
  let ch := (e &&& s.h5) ^^^ (not32 e &&& s.h6)
  let t1 := w32 (s.h7 + s1 + ch + sha256K.getD i 0 + w.getD i 0)
  let s0 := rotr32 a 2 ^^^ rotr32 a 13 ^^^ rotr32 a 22
  let maj := (a &&& s.h1) ^^^ (a &&& s.h2) ^^^ (s.h1 &&& s.h2)
  let t2 := w32 (s0 + maj)
  ⟨w32 (t1 + t2), a, s.h1, s.h2, w32 (s.h3 + t1), e, s.h5, s.h6⟩

/-- The SHA-256 compression function on one block. -/
def sha256Block (s : Sha256State) (blk : Bytes) : Sha256State :=
  let r := (List.range 64).foldl (sha256Step (sha256Schedule blk)) s
  ⟨w32 (s.h0 + r.h0), w32 (s.h1 + r.h1), w32 (s.h2 + r.h2), w32 (s.h3 + r.h3),
   w32 (s.h4 + r.h4), w32 (s.h5 + r.h5), w32 (s.h6 + r.h6), w32 (s.h7 + r.h7)⟩

/-- SHA-256 padding: `0x80`, zeros, and the bit length as 8 big-endian bytes. -/
def sha256Pad (msg : Bytes) : Bytes :=
  msg ++ [128] ++ List.replicate (padZeros msg.length) 0 ++
    (List.range 8).map (fun i => byteAt (8 * msg.length % 18446744073709551616) (7 - i))

/-- The four bytes of a word, most significant first. -/
def beBytes (x : Nat) : Bytes := [byteAt x 3, byteAt x 2, byteAt x 1, byteAt x 0]

/-- The SHA-256 digest (32 bytes) of a message. -/
def sha256 (msg : Bytes) : Bytes :=
  let s := (blocks64 (sha256Pad msg)).foldl sha256Block sha256Init
  beBytes s.h0 ++ beBytes s.h1 ++ beBytes s.h2 ++ beBytes s.h3 ++
    beBytes s.h4 ++ beBytes s.h5 ++ beBytes s.h6 ++ beBytes s.h7

set_option linter.dupNamespace false

/-! ## The data model: collections, payloads, events, jobs -/

/-- Modelled from the spec: the generated message `payload.Payload` (package `payload`
is not among the sources), one payload of a collection with the fields of section 3,
as seen through the getters the sources call (`GetAt`, `GetEvent`, `GetNr`,
`GetUserId`, `GetIp`, `GetParameters`, `GetIsTesting`); an unset field reads as its
zero value. -/
structure Payload where
  At : UInt64
  Event : Bytes
  Nr : UInt32
  UserId : UInt32
  Ip : Bytes
  Parameters : Bytes
  IsTesting : Bool
  deriving DecidableEq, Repr

/-- Modelled from the spec: the generated message `payload.Collection` (package
`payload` is not among the sources), the decoded inbound message with the fields of
section 3, as seen through the getters the sources call and its `Payloads` slice. -/
structure Collection where
  DeviceId : Bytes
  ClientId : Bytes
  Session : Bytes
  SystemVersion : Bytes
  ProductVersion : Bytes
  System : Bytes
  ProductGitHash : Bytes
  Payloads : List Payload
  deriving DecidableEq, Repr

/-- The struct `dialects.Event`. -/
structure Event where
  DeviceID : Bytes
  ClientID : Bytes
  Session : Bytes
  Nr : UInt32
  SystemVersion : Bytes
  ProductVersion : Bytes
  At : Bytes
  Event : Bytes
  System : Bytes
  ProductGitHash : Bytes
  UserID : UInt32
  IP : Bytes
  Parameters : Bytes
  IsTesting : Bool
  deriving DecidableEq, Repr

/-- Modelled from the spec: the struct `Job` (its declaration is not among the
sources), a record and its attempt counter (`Job{event, 1}` in `TrackHandler`,
`job.Event` and `job.Attempt` in the worker tests). The counter is a natural number:
the increment of the specification is exact. -/
structure Job where
  Event : Event
  Attempt : Nat
  deriving DecidableEq, Repr

/-! ## time.Unix(sec, 0).Format("2006-01-02T15:04:05") -/

/-- Conversion of an integer to `int64` (two's complement wrap-around). -/
def toInt64 (n : Int) : Int := (n + 9223372036854775808) % 18446744073709551616 - 9223372036854775808

/-- Conversion of an integer to `uint64` (wrap-around). -/
def toUint64 (n : Int) : Nat := (n % 18446744073709551616).toNat

/-- The constant `unixToInternal` of package `time`. -/
def unixToInternal : Int := (1969 * 365 + 1969 / 4 - 1969 / 100 + 1969 / 400) * 86400

/-- The constant `absoluteZeroYear` of package `time`. -/
def absoluteZeroYear : Int := -292277022399

/-- The constant `internalToAbsolute` of package `time`:
`-(absoluteZeroYear - 1) * 365.2425 * 86400`, where `365.2425 * 86400 = 31556952`. -/
def internalToAbsolute : Int := -((absoluteZeroYear - 1) * 31556952)

/-- The table `daysBefore` of package `time`. -/
def daysBefore : List Nat := [0, 31, 59, 90, 120, 151, 181, 212, 243, 273, 304, 334, 365]

/-- The function `isLeap` of package `time`. -/
def isLeap (year : Int) : Bool := year % 4 = 0 && (year % 100 ≠ 0 || year % 400 = 0)

/-- The function `absDate` of package `time`: year, month (1..12) and day of the month
of an absolute time. -/
def absDate (abs : Nat) : Int × Nat × Nat :=
  let d := abs / 86400
  let n := d / 146097
  let y := 400 * n
  let d := d - 146097 * n
  let n := d / 36524
  let n := n - (n >>> 2)
  let y := y + 100 * n
  let d := d - 36524 * n
  let n := d / 1461
  let y := y + 4 * n
  let d := d - 1461 * n
  let n := d / 365
  let n := n - (n >>> 2)
  let y := y + n
  let d := d - 365 * n
  let year : Int := toInt64 (toInt64 (y : Int) + absoluteZeroYear)
  if isLeap year && d = 31 + 29 - 1 then (year, 2, 29)
  else
    let day := if isLeap year && d > 31 + 29 - 1 then d - 1 else d
    let month := day / 31
    let fin := daysBefore.getD (month + 1) 0
    if day ≥ fin then (year, month + 2, day - fin + 1)
    else (year, month + 1, day - daysBefore.getD month 0 + 1)

/-- The function `absClock` of package `time`: hour, minute and second. -/
def absClock (abs : Nat) : Nat × Nat × Nat :=
  let sec := abs % 86400
  let hour := sec / 3600
  let sec := sec - hour * 3600
  let min := sec / 60
  (hour, min, sec - min * 60)

/-- The digit loop shared by `appendInt` and `strconv.AppendUint`: the decimal digits
of `n` are put in front of `acc`, last digit first; `fuel` bounds the number of digits. -/
def decimalLoop : Nat → Nat → Bytes → Bytes
  | 0, _, acc => acc
  | fuel + 1, n, acc =>
    if n < 10 then UInt8.ofNat (48 + n) :: acc
    else decimalLoop fuel (n / 10) (UInt8.ofNat (48 + n % 10) :: acc)

/-- The decimal digits of a natural number (a number has at most `n + 1` digits). -/
def decimal (n : Nat) : Bytes := decimalLoop (n + 1) n []

/-- The function `appendInt` of package `time`: sign, then the decimal digits
padded with zeros to at least `width` digits. -/
def appendInt (x : Int) (width : Nat) : Bytes :=
  let ds := decimal x.natAbs
  (if x < 0 then [byteOf '-'] else []) ++ List.replicate (width - ds.length) (byteOf '0') ++ ds

/-- The process environment the handler depends on and that the sources leave to
libraries: the protobuf decoder of collections (`proto.Unmarshal` into
`payload.Collection`, an error text on failure), the offset in seconds east of UTC
that the process's local time zone has at a given Unix time, and `strconv.Quote`
(the verb `%q`). -/
structure Env where
  unmarshal : Bytes → Except Bytes Collection
  zoneOffset : Int → Int
  quote : Bytes → Bytes

/-- Source function `ConvertIsoformat`: `time.Unix(int64(at), 0).Format("2006-01-02T15:04:05")`,
in the local time zone. -/
def ConvertIsoformat (env : Env) (at_ : UInt64) : Bytes :=
  let sec := toInt64 (at_.toNat : Int)
  let abs := toUint64 (sec + env.zoneOffset sec + (unixToInternal + internalToAbsolute))
  let date := absDate abs
  let clock := absClock abs
  appendInt date.1 4 ++ [byteOf '-'] ++ appendInt date.2.1 2 ++ [byteOf '-'] ++
    appendInt date.2.2 2 ++ [byteOf 'T'] ++ appendInt clock.1 2 ++ [byteOf ':'] ++
    appendInt clock.2.1 2 ++ [byteOf ':'] ++ appendInt clock.2.2 2

/-- Source function `NewEvent`: creates a new event based on the collection and a single payload. -/
def NewEvent (env : Env) (meta_ : Collection) (payload : Payload) : Event :=
  { DeviceID := meta_.DeviceId
    ClientID := meta_.ClientId
    Session := meta_.Session
    Nr := payload.Nr
    SystemVersion := meta_.SystemVersion
    ProductVersion := meta_.ProductVersion
    At := ConvertIsoformat env payload.At
    Event := payload.Event
    System := meta_.System
    ProductGitHash := meta_.ProductGitHash
    UserID := payload.UserId
    IP := payload.Ip
    Parameters := payload.Parameters
    IsTesting := payload.IsTesting }

/-! ## The calendar reading of a time stamp -/

/-- The year index (years since the absolute zero year) and the day of the year that
`absDate` computes from an absolute time, before it turns them into a date. -/
def absYearDay (abs : Nat) : Nat × Nat :=
  let d := abs / 86400
  let n := d / 146097
  let y := 400 * n
  let d := d - 146097 * n
  let n := d / 36524
  let n := n - (n >>> 2)
  let y := y + 100 * n
  let d := d - 36524 * n
  let n := d / 1461
  let y := y + 4 * n
  let d := d - 1461 * n
  let n := d / 365
  let n := n - (n >>> 2)
  let y := y + n
  (y, d - 365 * n)

/-- The month and the day of the month that `absDate` computes from the day of the
year (0 is the first of January), in a leap year or not. -/
def monthDay (leap : Bool) (yday : Nat) : Nat × Nat :=
  if leap && yday = 31 + 29 - 1 then (2, 29)
  else
    let day := if leap && yday > 31 + 29 - 1 then yday - 1 else yday
    let month := day / 31
    let fin := daysBefore.getD (month + 1) 0
    if day ≥ fin then (month + 2, day - fin + 1)
    else (month + 1, day - daysBefore.getD month 0 + 1)

/-- The leap years of the proleptic Gregorian calendar. -/
def gregorianLeap (year : Int) : Bool :=
  year % 4 = 0 && (year % 100 ≠ 0 || year % 400 = 0)

/-- The number of days of a month, in a leap year or not. -/
def monthLength (leap : Bool) (month : Nat) : Nat :=
  if month = 2 then (if leap then 29 else 28)
  else if month = 4 ∨ month = 6 ∨ month = 9 ∨ month = 11 then 30
  else 31

/-- The number of days of a year that lie before the first of a month. -/
def daysBeforeMonth (leap : Bool) (month : Nat) : Nat :=
  ((List.range (month - 1)).map (fun i => monthLength leap (i + 1))).sum

/-- The number of days from 0001-01-01 to the first of January of a year, in the
proleptic Gregorian calendar. -/
def daysBeforeYear (year : Int) : Int :=
  365 * (year - 1) + (year - 1) / 4 - (year - 1) / 100 + (year - 1) / 400

/-- The instant a civil date and time of day denotes at an offset of zero: seconds
since 1970-01-01T00:00:00, which is day 719162 after 0001-01-01. -/
def civilSeconds (year : Int) (month day hour minute second : Nat) : Int :=
  (daysBeforeYear year + daysBeforeMonth (gregorianLeap year) month + ((day : Int) - 1)
      - 719162) * 86400 + hour * 3600 + minute * 60 + second

/-- Two decimal digits. -/
def twoDigits (n : Nat) : Bytes :=
  [UInt8.ofNat (48 + n / 10 % 10), UInt8.ofNat (48 + n % 10)]

/-- Four decimal digits. -/
def fourDigits (n : Nat) : Bytes :=
  [UInt8.ofNat (48 + n / 1000 % 10), UInt8.ofNat (48 + n / 100 % 10),
   UInt8.ofNat (48 + n / 10 % 10), UInt8.ofNat (48 + n % 10)]

/-- The text `YYYY-MM-DDTHH:MM:SS` of a civil date and time of day. -/
def isoText (year month day hour minute second : Nat) : Bytes :=
  fourDigits year ++ [byteOf '-'] ++ twoDigits month ++ [byteOf '-'] ++ twoDigits day ++
    [byteOf 'T'] ++ twoDigits hour ++ [byteOf ':'] ++ twoDigits minute ++ [byteOf ':'] ++
    twoDigits second

/-! ## hash.Hash, GetSignature and GetSession -/

/-- A running hash (`hash.Hash`): the digest function and the bytes written so far. -/
structure Hash where
  digest : Bytes → Bytes
  written : Bytes

/-- Library call `md5.New()`. -/
def md5New : Hash := ⟨md5, []⟩

/-- Library call `sha256.New()`. -/
def sha256New : Hash := ⟨sha256, []⟩

/-- Library call `io.WriteString(h, s)`: appends `s` to the hashed input. -/
def Hash.WriteString (h : Hash) (s : Bytes) : Hash := { h with written := h.written ++ s }

/-- Library call `h.Sum(nil)`: the digest of everything written. -/
def Hash.Sum (h : Hash) : Bytes := h.digest h.written

/-- Source function `GetSignature`: returns the request's signature; `sharedSecret` is
`config.SharedSecret`. -/
def GetSignature (sharedSecret : Bytes) (body : Bytes) (time : Bytes) : Bytes :=
  let bodyHash := md5New
  let bodyHash := bodyHash.WriteString body
  let requestHash := sha256New
  let requestHash := requestHash.WriteString time
  let requestHash := requestHash.WriteString (bytesOf "|")
  let requestHash := requestHash.WriteString (hexEncode bodyHash.Sum)
  let requestHash := requestHash.WriteString (bytesOf "|")
  let requestHash := requestHash.WriteString sharedSecret
  base64Encode requestHash.Sum

/-- Source function `GetSession`: returns the protobuf message's session. -/
def GetSession (c : Collection) : Bytes :=
  let session := md5New
  let session := session.WriteString c.DeviceId
  let session := session.WriteString (bytesOf ":")
  let session := session.WriteString c.ClientId
  let session := session.WriteString (bytesOf ":")
  let session := session.WriteString c.SystemVersion
  let session := session.WriteString (bytesOf ":")
  let session := session.WriteString c.ProductVersion
  hexEncode session.Sum

/-! ## net/http: requests and the response writer -/

/-- An inbound request: method, header map (canonical keys) and the body as read
by `ioutil.ReadAll`. -/
structure Request where
  Method : Bytes
  Header : List (Bytes × Bytes)
  Body : Bytes

/-- Library call `Header.Get`: the value stored under the key, the empty string when absent. -/
def headerGet (h : List (Bytes × Bytes)) (key : String) : Bytes :=
  match h.find? (fun kv => kv.1 = bytesOf key) with
  | some kv => kv.2
  | none => []

/-- The state of an `http.ResponseWriter`: the header map, whether a status line
has been written and which, and the body written so far. -/
structure ResponseWriter where
  header : List (String × String)
  wroteHeader : Bool
  status : Nat
  body : Bytes
  deriving DecidableEq, Repr

/-- The response writer a handler is started with. -/
def ResponseWriter.fresh : ResponseWriter := ⟨[], false, 0, []⟩

/-- Library call `w.Header().Set(key, value)`. -/
def ResponseWriter.SetHeader (w : ResponseWriter) (key value : String) : ResponseWriter :=
  { w with header := (key, value) :: w.header.filter (fun kv => kv.1 ≠ key) }

/-- Library call `w.WriteHeader(code)`: only the first call takes effect. -/
def ResponseWriter.WriteHeader (w : ResponseWriter) (code : Nat) : ResponseWriter :=
  if w.wroteHeader then w else { w with wroteHeader := true, status := code }

/-- Library call `w.Write(data)`: writes the status 200 first when none has been written. -/
def ResponseWriter.Write (w : ResponseWriter) (data : Bytes) : ResponseWriter :=
  let w := if w.wroteHeader then w else w.WriteHeader 200
  { w with body := w.body ++ data }

/-- The status the client receives once the handler has returned: the status
written, or 200 when the handler wrote none. -/
def ResponseWriter.replyStatus (w : ResponseWriter) : Nat :=
  if w.wroteHeader then w.status else 200

/-! ## The intake handler -/

/-- The process-wide variables of `main.go` that the handler reads or writes:
`config.SharedSecret`, `verbose`, `isTerminating`, the jobs sent on `jobQueue`
(oldest first) and the lines given to the logger. -/
structure Server where
  sharedSecret : Bytes
  verbose : Bool
  isTerminating : Bool
  jobQueue : List Job
  logged : List Bytes

/-- Source function `BroadcastError`: prints the error messages. -/
def BroadcastError (env : Env) (s : Server) (w : ResponseWriter) (err : Bytes) (code : Nat) :
    Server × ResponseWriter :=
  let s := { s with logged := s.logged ++ [err] }
  if s.verbose then
    let w := w.SetHeader "Content-Type" "application/json"
    let w := w.WriteHeader code
    (s, w.Write (bytesOf "\x7b\"error\":" ++ env.quote err ++ bytesOf "\x7d"))
  else (s, w)

/-- The channel send `jobQueue <- &job`. -/
def Server.send (s : Server) (job : Job) : Server := { s with jobQueue := s.jobQueue ++ [job] }

/-- Source function `TrackHandler`: controller for `/api/v1/track`. -/
def TrackHandler (env : Env) (s : Server) (w : ResponseWriter) (r : Request) :
    Server × ResponseWriter :=
  -- Do not accept new events while the server is shutting down.
  let sw :=
    if s.isTerminating then BroadcastError env s w (bytesOf "Server is currenly shutting down") 503
    else (s, w)
  -- Ignore not POST messages.
  if r.Method ≠ bytesOf "POST" then
    BroadcastError env sw.1 sw.2 (bytesOf "Sending method is not POST") 405
  -- If the client did not send time, we ignore
  else if headerGet r.Header "X-Hamustro-Time" = [] then
    BroadcastError env sw.1 sw.2 (bytesOf "X-Hamustro-Time header is missing") 405
  else
    -- If the client did not send signature of the message, we ignore
    let sw :=
      if headerGet r.Header "X-Hamustro-Signature" = [] then
        BroadcastError env sw.1 sw.2 (bytesOf "X-Hamustro-Signature header is missing") 405
      else sw
    -- Read the requests body into a variable.
    let body := r.Body
    -- Calculate the request's signature
    if headerGet r.Header "X-Hamustro-Signature" ≠
        GetSignature sw.1.sharedSecret body (headerGet r.Header "X-Hamustro-Time") then
      BroadcastError env sw.1 sw.2 (bytesOf "X-Hamustro-Signature header is invalid") 405
    else
      -- Read the body into protobuf decoding.
      match env.unmarshal body with
      | .error err =>
        BroadcastError env sw.1 sw.2
          (bytesOf "Unmarshaling protobuf collection is failed: " ++ err) 400
      | .ok collection =>
        -- Checks the session information
        if GetSession collection ≠ collection.Session then
          BroadcastError env sw.1 sw.2 (bytesOf "Collection's session attribute is invalid") 400
        else
          -- Creates a Job and put into the JobQueue for processing.
          let s1 := collection.Payloads.foldl
            (fun st payload => st.send ⟨NewEvent env collection payload, 1⟩) sw.1
          -- Returns with 200.
          (s1, sw.2.WriteHeader 200)

/-! ## encoding/json for the struct `Event` -/

/-- Library call `utf8.DecodeRuneInString`: the first rune of a string and its width in bytes;
an invalid or truncated encoding gives `(RuneError, 1)`, the empty string
`(RuneError, 0)`. -/
def decodeRune (s : Bytes) : Nat × Nat :=
  match s with
  | [] => (0xFFFD, 0)
  | b0 :: rest =>
    let c0 := b0.toNat
    let cont := fun (b : UInt8) => 0x80 ≤ b.toNat ∧ b.toNat ≤ 0xBF
    if c0 < 0x80 then (c0, 1)
    else if c0 < 0xC2 then (0xFFFD, 1)
    else if c0 < 0xE0 then
      match rest with
      | b1 :: _ =>
        if cont b1 then (((c0 &&& 0x1F) <<< 6) ||| (b1.toNat &&& 0x3F), 2) else (0xFFFD, 1)
      | _ => (0xFFFD, 1)
    else if c0 < 0xF0 then
      match rest with
      | b1 :: b2 :: _ =>
        if (if c0 = 0xE0 then 0xA0 else 0x80) ≤ b1.toNat
            ∧ b1.toNat ≤ (if c0 = 0xED then 0x9F else 0xBF) ∧ cont b2 then
          (((c0 &&& 0x0F) <<< 12) ||| ((b1.toNat &&& 0x3F) <<< 6) ||| (b2.toNat &&& 0x3F), 3)
        else (0xFFFD, 1)
      | _ => (0xFFFD, 1)
    else if c0 < 0xF5 then
      match rest with
      | b1 :: b2 :: b3 :: _ =>
        if (if c0 = 0xF0 then 0x90 else 0x80) ≤ b1.toNat
            ∧ b1.toNat ≤ (if c0 = 0xF4 then 0x8F else 0xBF) ∧ cont b2 ∧ cont b3 then
          (((c0 &&& 0x07) <<< 18) ||| ((b1.toNat &&& 0x3F) <<< 12) |||
            ((b2.toNat &&& 0x3F) <<< 6) ||| (b3.toNat &&& 0x3F), 4)
        else (0xFFFD, 1)
      | _ => (0xFFFD, 1)
    else (0xFFFD, 1)

/-- The escape of one ASCII byte in `encodeState.string`: bytes from `0x20` on other
than `\`, `"`, `<`, `>`, `&` are copied; `\` and `"` get a backslash; newline, carriage
return and tab become `\n`, `\r`, `\t`; everything else becomes `\u00XX`. -/
def jsonEscapeByte (b : UInt8) : Bytes :=
  if 0x20 ≤ b.toNat ∧ b ≠ byteOf '\\' ∧ b ≠ byteOf '"' ∧ b ≠ byteOf '<' ∧ b ≠ byteOf '>'
      ∧ b ≠ byteOf '&' then [b]
  else if b = byteOf '\\' ∨ b = byteOf '"' then [byteOf '\\', b]
  else if b = byteOf '\n' then [byteOf '\\', byteOf 'n']
  else if b = byteOf '\r' then [byteOf '\\', byteOf 'r']
  else if b = byteOf '\t' then [byteOf '\\', byteOf 't']
  else bytesOf "\\u00" ++ [hexDigit (b.toNat >>> 4), hexDigit (b.toNat &&& 15)]

/-- The loop of `encodeState.string`: `fuel` bounds the number of iterations, each of
which consumes at least one byte. -/
def jsonStringLoop : Nat → Bytes → Bytes
  | 0, _ => []
  | fuel + 1, s =>
    match s with
    | [] => []
    | b :: rest =>
      if b.toNat < 0x80 then jsonEscapeByte b ++ jsonStringLoop fuel rest
      else
        let cs := decodeRune s
        if cs.1 = 0xFFFD ∧ cs.2 = 1 then bytesOf "\\ufffd" ++ jsonStringLoop fuel rest
        else if cs.1 = 0x2028 ∨ cs.1 = 0x2029 then
          bytesOf "\\u202" ++ [hexDigit (cs.1 &&& 15)] ++ jsonStringLoop fuel (s.drop cs.2)
        else s.take cs.2 ++ jsonStringLoop fuel (s.drop cs.2)

/-- Library call `encodeState.string`: a Go string as a JSON string literal. -/
def jsonString (s : Bytes) : Bytes :=
  [byteOf '"'] ++ jsonStringLoop s.length s ++ [byteOf '"']

/-- A `uint32` as a JSON number. -/
def jsonUint (n : UInt32) : Bytes := decimal n.toNat

/-- A `bool` as a JSON literal. -/
def jsonBool (b : Bool) : Bytes := if b then bytesOf "true" else bytesOf "false"

/-- A struct field tagged `omitempty` of type string: left out when empty. -/
def jsonOmitString (key : String) (v : Bytes) : Bytes :=
  if v = [] then [] else bytesOf key ++ jsonString v

/-- Library call `json.Marshal` of an `Event`: the fields in declaration order under their tags,
the `omitempty` fields left out when zero. -/
def jsonMarshalEvent (e : Event) : Bytes :=
  bytesOf "\x7b\"device_id\":" ++ jsonString e.DeviceID ++
  bytesOf ",\"client_id\":" ++ jsonString e.ClientID ++
  bytesOf ",\"session\":" ++ jsonString e.Session ++
  bytesOf ",\"nr\":" ++ jsonUint e.Nr ++
  bytesOf ",\"system_version\":" ++ jsonString e.SystemVersion ++
  bytesOf ",\"product_version\":" ++ jsonString e.ProductVersion ++
  bytesOf ",\"at\":" ++ jsonString e.At ++
  bytesOf ",\"event\":" ++ jsonString e.Event ++
  jsonOmitString ",\"system\":" e.System ++
  jsonOmitString ",\"product_git_hash\":" e.ProductGitHash ++
  (if e.UserID = 0 then [] else bytesOf ",\"user_id\":" ++ jsonUint e.UserID) ++
  jsonOmitString ",\"ip\":" e.IP ++
  jsonOmitString ",\"parameters\":" e.Parameters ++
  bytesOf ",\"is_testing\":" ++ jsonBool e.IsTesting ++ bytesOf "\x7d"

/-- Library call `json.NewEncoder(b).Encode(event)`: the marshalled value followed by a newline;
no field of `Event` has a type the encoder refuses. -/
def jsonEncode (e : Event) : Except Bytes Bytes := .ok (jsonMarshalEvent e ++ [byteOf '\n'])

/-- Source function `Event.GetJSONMessage`: dumps the event into a JSON string. -/
def GetJSONMessage (event : Event) : Except Bytes Bytes :=
  match jsonEncode event with
  | .error err => .error err
  | .ok b => .ok b

/-- Modelled from the spec: `ConvertJSON` of package `dialects` is not among the
sources (the tests call it); the single JSON mode "encodes one record as a JSON object
followed by a trailing newline", which is what `GetJSONMessage` produces. -/
def ConvertJSON (event : Event) : Except Bytes Bytes := GetJSONMessage event

/-- Modelled from the spec: `ConvertBatchJSON` of package `dialects` is not among the
sources (the tests call it); the batch JSON mode "concatenates the single-record
encodings in insertion order". -/
def ConvertBatchJSON (messages : List Event) : Except Bytes Bytes :=
  messages.foldlM (fun buffer event => (ConvertJSON event).map (fun msg => buffer ++ msg)) []

/-- The record of `GetTestEvent(userId)` in the worker tests. -/
def GetTestEvent (userId : UInt32) : Event :=
  { DeviceID := bytesOf "a73b1c37-2c24-4786-af7a-16de88fbe23a"
    ClientID := bytesOf "bce44f67b2661fd445d469b525b04f68"
    Session := bytesOf "244f056dee6d475ec673ea0d20b69bab"
    Nr := 1
    SystemVersion := bytesOf "10.10"
    ProductVersion := bytesOf "1.1.2"
    At := bytesOf "2016-02-05T15:05:04"
    Event := bytesOf "Client.CreateUser"
    System := bytesOf "OSX"
    ProductGitHash := bytesOf "5416a5889392d509e3bafcf40f6388e83aab23e6"
    UserID := userId
    IP := bytesOf "214.160.227.22"
    Parameters := bytesOf ""
    IsTesting := false }

/-! ## The worker

`worker.go` is not among the sources; only its tests are. The worker below is the
one of the specification (sections 3, 4.4 and 6), with the field and method names the
tests use (`RetryAttempt`, `BufferedEvents`, `Penalty`, `GetBufferSize`). -/

/-- Modelled from the spec: the sink capability of section 6 (`buffered?`,
`single_convert`, `batch_convert`, `save`), the storage client of the missing
`dialects` interface. The sink has a state of type `σ`; `save` answers `true` for
`ok` and `false` for `error`. -/
structure Sink (σ : Type) where
  buffered : Bool
  single_convert : Event → Bytes
  batch_convert : List Event → Bytes
  save : σ → Bytes → Bool × σ

/-- Modelled from the spec: the worker state of section 3 (the struct `Worker` of the
missing `worker.go`): `id`, `base_buffer_size`, `retry_cap`, `buffered_events` and
`penalty`. The penalty is an exact rational number, as in the arithmetic the
specification writes (`2/3`, `1.5`, `ceil`). -/
structure Worker where
  ID : Nat
  BufferSize : Nat
  RetryAttempt : Nat
  BufferedEvents : List Event
  Penalty : ℚ

/-- Modelled from the spec: `NewWorker` of the missing `worker.go`: an empty buffer and
the penalty 1.0. -/
def NewWorker (id bufferSize retryAttempt : Nat) : Worker :=
  ⟨id, bufferSize, retryAttempt, [], 1⟩

/-- Modelled from the spec: `Worker.GetBufferSize` of the missing `worker.go`:
`effective_size = ceil(base_buffer_size * penalty)`. -/
def Worker.GetBufferSize (w : Worker) : Nat :=
  ⌈(w.BufferSize : ℚ) * w.Penalty⌉₊

/-- What a worker acts on: its own state, the state of the sink, the job queue, the
idle pool (the identifiers of the workers that have published their inbound slot) and
the messages handed to `save` so far. -/
structure Scene (σ : Type) where
  worker : Worker
  sink : σ
  jobQueue : List Job
  pool : List Nat
  saved : List Bytes

/-- Modelled from the spec: the unbuffered mode of section 4.4, one received job (the
run loop of the missing `worker.go`). The record is serialized with the single-record
converter and saved; on failure the attempt of the job is incremented and the job is
pushed back onto the job queue if the new attempt is at most the retry cap, dropped
otherwise; the worker republishes itself to the idle pool either way. The job is
returned as the worker leaves it. -/
def Worker.workSingle {σ : Type} (sink : Sink σ) (x : Scene σ) (job : Job) : Scene σ × Job :=
  let msg := sink.single_convert job.Event
  let res := sink.save x.sink msg
  let x := { x with sink := res.2, saved := x.saved ++ [msg] }
  if res.1 then ({ x with pool := x.pool ++ [x.worker.ID] }, job)
  else
    let job := { job with Attempt := job.Attempt + 1 }
    if job.Attempt ≤ x.worker.RetryAttempt then
      ({ x with jobQueue := x.jobQueue ++ [job], pool := x.pool ++ [x.worker.ID] }, job)
    else ({ x with pool := x.pool ++ [x.worker.ID] }, job)

/-- Modelled from the spec: the buffered mode of section 4.4, one received job (the run
loop of the missing `worker.go`). The record is appended to `buffered_events`; if the
buffer has reached the effective size the batch is converted and saved: on success the
buffer is cleared and the penalty multiplied by 2/3 and clamped at 1.0, on failure the
penalty is multiplied by 1.5 and the buffer kept. The worker then republishes itself. -/
def Worker.workBuffered {σ : Type} (sink : Sink σ) (x : Scene σ) (job : Job) : Scene σ :=
  let w := { x.worker with BufferedEvents := x.worker.BufferedEvents ++ [job.Event] }
  if w.BufferedEvents.length ≥ w.GetBufferSize then
    let msg := sink.batch_convert w.BufferedEvents
    let res := sink.save x.sink msg
    let w :=
      if res.1 then { w with BufferedEvents := [], Penalty := max 1 (w.Penalty * (2 / 3)) }
      else { w with Penalty := w.Penalty * (3 / 2) }
    { x with worker := w, sink := res.2, saved := x.saved ++ [msg],
             pool := x.pool ++ [w.ID] }
  else { x with worker := w, pool := x.pool ++ [w.ID] }

/-- Modelled from the spec: a worker in buffered mode receiving a sequence of jobs, one
after the other. -/
def Worker.runBuffered {σ : Type} (sink : Sink σ) (x : Scene σ) (jobs : List Job) : Scene σ :=
  jobs.foldl (Worker.workBuffered sink) x

/-- The worker states reachable in buffered mode: from a new worker, by receiving jobs,
whatever the sink does. -/
inductive Worker.Reachable : Worker → Prop
  | start (id bufferSize retryAttempt : Nat) :
      Worker.Reachable (NewWorker id bufferSize retryAttempt)
  | step {σ : Type} (sink : Sink σ) (x : Scene σ) (job : Job) :
      Worker.Reachable x.worker → Worker.Reachable (Worker.workBuffered sink x job).worker

/-- A sink as the test doubles of the worker tests are: its state is the list of the
answers it gives to the coming `save` calls (`true` for success), and it succeeds
once the list is used up; the converters are the JSON converters. -/
def scriptedSink (buffered : Bool) : Sink (List Bool) :=
  { buffered := buffered
    single_convert := fun e => match ConvertJSON e with
      | .ok b => b
      | .error _ => []
    batch_convert := fun es => match ConvertBatchJSON es with
      | .ok b => b
      | .error _ => []
    save := fun st _ => match st with
      | [] => (true, [])
      | ok :: rest => (ok, rest) }

/-- The scene of the tests: worker 1 with base buffer size 10 and the given retry cap,
an empty queue, an empty pool, and the scripted answers of the sink. -/
def testScene (retryAttempt : Nat) (answers : List Bool) : Scene (List Bool) :=
  ⟨NewWorker 1 10 retryAttempt, answers, [], [], []⟩

/-- The jobs `Job{GetTestEvent(first + i), 1}` for `i < n`. -/
def testJobs (first n : Nat) : List Job :=
  (List.range n).map (fun i => ⟨GetTestEvent (UInt32.ofNat (first + i)), 1⟩)

/-! ## The intake table of the specification -/

/-- The status the intake table of the specification assigns to a request that
arrives while the server is not draining (method, time header, signature
header, signature, decoding, session, in this order). -/
def intakeStatus (env : Env) (sharedSecret : Bytes) (r : Request) : Nat :=
  if r.Method ≠ bytesOf "POST" then 405
  else if headerGet r.Header "X-Hamustro-Time" = [] then 405
  else if headerGet r.Header "X-Hamustro-Signature" = [] then 405
  else if headerGet r.Header "X-Hamustro-Signature" ≠
      GetSignature sharedSecret r.Body (headerGet r.Header "X-Hamustro-Time") then 405
  else
    match env.unmarshal r.Body with
    | .error _ => 400
    | .ok collection => if GetSession collection ≠ collection.Session then 400 else 200

/-- The body `BroadcastError` writes in verbose mode: `{"error":%q}`. -/
def errorBody (env : Env) (err : Bytes) : Bytes :=
  bytesOf "\x7b\"error\":" ++ env.quote err ++ bytesOf "\x7d"

/-- The message the handler reports last for a request that arrives while the
server is not draining; `none` for an accepted request. -/
def intakeError (env : Env) (sharedSecret : Bytes) (r : Request) : Option Bytes :=
  if r.Method ≠ bytesOf "POST" then some (bytesOf "Sending method is not POST")
  else if headerGet r.Header "X-Hamustro-Time" = [] then
    some (bytesOf "X-Hamustro-Time header is missing")
  else if headerGet r.Header "X-Hamustro-Signature" ≠
      GetSignature sharedSecret r.Body (headerGet r.Header "X-Hamustro-Time") then
    some (bytesOf "X-Hamustro-Signature header is invalid")
  else
    match env.unmarshal r.Body with
    | .error err => some (bytesOf "Unmarshaling protobuf collection is failed: " ++ err)
    | .ok collection =>
      if GetSession collection ≠ collection.Session then
        some (bytesOf "Collection's session attribute is invalid")
      else none

/-! ## Concrete data: the record of the worker tests -/

/-- The collection behind the record of `GetTestEvent(3423543)`. -/
def testCollection : Collection :=
  { DeviceId := bytesOf "a73b1c37-2c24-4786-af7a-16de88fbe23a"
    ClientId := bytesOf "bce44f67b2661fd445d469b525b04f68"
    Session := bytesOf "244f056dee6d475ec673ea0d20b69bab"
    SystemVersion := bytesOf "10.10"
    ProductVersion := bytesOf "1.1.2"
    System := bytesOf "OSX"
    ProductGitHash := bytesOf "5416a5889392d509e3bafcf40f6388e83aab23e6"
    Payloads :=
      [⟨1454684704, bytesOf "Client.CreateUser", 1, 3423543, bytesOf "214.160.227.22", [], false⟩] }

/-- The same collection with a declared session that is not the derived one. -/
def forgedCollection : Collection :=
  { testCollection with Session := bytesOf "00000000000000000000000000000000" }

/-- A request body standing for the wire encoding of `testCollection`. -/
def testBody : Bytes := bytesOf "collection-1"

/-- A request body standing for the wire encoding of `forgedCollection`. -/
def forgedBody : Bytes := bytesOf "collection-2"

/-- An environment: a decoder that knows the two bodies above, UTC as the local
time zone, and a quoting function for plain text. -/
def testEnv : Env :=
  { unmarshal := fun b =>
      if b = testBody then .ok testCollection
      else if b = forgedBody then .ok forgedCollection
      else .error (bytesOf "unexpected EOF")
    zoneOffset := fun _ => 0
    quote := fun b => bytesOf "\"" ++ b ++ bytesOf "\"" }

/-- A server with the shared secret `secret`, an empty job queue and an empty log. -/
def testServer (verbose draining : Bool) : Server :=
  ⟨bytesOf "secret", verbose, draining, [], []⟩

/-- A request with the time header `1454684704` and the given method, signature
header (none when the text is empty) and body. -/
def testRequest (method sig : String) (body : Bytes) : Request :=
  ⟨bytesOf method,
   (bytesOf "X-Hamustro-Time", bytesOf "1454684704") ::
     (if sig = "" then [] else [(bytesOf "X-Hamustro-Signature", bytesOf sig)]),
   body⟩

/-- The signature of `testBody` at time `1454684704` under the secret `secret`. -/
def testSignature : String := "fLVrxqPrx9HqadZ8dvBoDgHU6xrTJAI58K539GPseAw="

/-- The signature of `forgedBody` at time `1454684704` under the secret `secret`. -/
def forgedSignature : String := "7mT9T0bXYrjamV9zt1a1U8aNvmUsZ42K6PZvRpzXekc="

/-- The payload of `testCollection`. -/
def testPayload : Payload :=
  ⟨1454684704, bytesOf "Client.CreateUser", 1, 3423543, bytesOf "214.160.227.22", [], false⟩

/-! # Theorems -/

/-! ## Test vectors of the library models -/

set_option maxRecDepth 1000000 in
theorem md5_vectors :
    hexEncode (md5 (bytesOf "")) = bytesOf "d41d8cd98f00b204e9800998ecf8427e"
      ∧ hexEncode (md5 (bytesOf "abc")) = bytesOf "900150983cd24fb0d6963f7d28e17f72"
      ∧ hexEncode (md5 (bytesOf
          "12345678901234567890123456789012345678901234567890123456789012345678901234567890"))
        = bytesOf "57edf4a22be3c955ac49da2e2107b67a" := by
  decide

set_option maxRecDepth 1000000 in
theorem sha256_vectors :
    hexEncode (sha256 (bytesOf "abc"))
        = bytesOf "ba7816bf8f01cfea414140de5dae2223b00361a396177a9cb410ff61f20015ad"
      ∧ hexEncode (sha256 (bytesOf "abcdbcdecdefdefgefghfghighijhijkijkljklmklmnlmnomnopnopq"))
        = bytesOf "248d6a61d20638b8e5c026930c3e6039a33ce45964ff2167f6ecedd419db06c1" := by
  decide

theorem base64_vectors :
    base64Encode (bytesOf "f") = bytesOf "Zg=="
      ∧ base64Encode (bytesOf "fo") = bytesOf "Zm8="
      ∧ base64Encode (bytesOf "foo") = bytesOf "Zm9v"
      ∧ base64Encode (bytesOf "foobar") = bytesOf "Zm9vYmFy" := by
  decide

set_option maxRecDepth 1000000 in
/-- The test collection gives the record of the worker tests, in UTC. -/
theorem NewEvent_testCollection :
    testCollection.Payloads.map (NewEvent testEnv testCollection) = [GetTestEvent 3423543] := by
  decide

set_option maxRecDepth 1000000 in
/-- The single-record encoding of the record of the worker tests. -/
theorem ConvertJSON_testEvent :
    ConvertJSON (GetTestEvent 3423543) = .ok (bytesOf
      ("\x7b\"device_id\":\"a73b1c37-2c24-4786-af7a-16de88fbe23a\"," ++
       "\"client_id\":\"bce44f67b2661fd445d469b525b04f68\"," ++
       "\"session\":\"244f056dee6d475ec673ea0d20b69bab\",\"nr\":1," ++
       "\"system_version\":\"10.10\",\"product_version\":\"1.1.2\"," ++
       "\"at\":\"2016-02-05T15:05:04\",\"event\":\"Client.CreateUser\"," ++
       "\"system\":\"OSX\"," ++
       "\"product_git_hash\":\"5416a5889392d509e3bafcf40f6388e83aab23e6\"," ++
       "\"user_id\":3423543,\"ip\":\"214.160.227.22\",\"is_testing\":false\x7d\n")) := by
  rfl

/-! ## Lengths and alphabets of the encodings -/

theorem md5_length (msg : Bytes) : (md5 msg).length = 16 := by
  simp [md5, leBytes]

theorem sha256_length (msg : Bytes) : (sha256 msg).length = 32 := by
  simp [sha256, beBytes]

theorem hexEncode_length (b : Bytes) : (hexEncode b).length = 2 * b.length := by
  induction b with
  | nil => rfl
  | cons x xs ih => simp [hexEncode, ih]; omega

theorem hexDigit_mem (n : Nat) : hexDigit n ∈ hextable := by
  unfold hexDigit
  have h : n % 16 < hextable.length := by
    have : hextable.length = 16 := by decide
    omega
  rw [List.getD_eq_getElem _ _ h]
  exact List.getElem_mem h

theorem hexEncode_mem (b : Bytes) : ∀ x ∈ hexEncode b, x ∈ hextable := by
  induction b with
  | nil => intro x hx; simp [hexEncode] at hx
  | cons y ys ih =>
    intro x hx
    simp only [hexEncode, List.mem_cons] at hx
    rcases hx with rfl | rfl | hx
    · exact hexDigit_mem _
    · exact hexDigit_mem _
    · exact ih x hx

theorem b64Digit_mem (v : Nat) : b64Digit v ∈ encodeStd := by
  unfold b64Digit
  have h : v &&& 63 < encodeStd.length := by
    have h1 : encodeStd.length = 64 := by decide
    have h2 : v &&& 63 ≤ 63 := Nat.and_le_right
    omega
  rw [List.getD_eq_getElem _ _ h]
  exact List.getElem_mem h

theorem stdPadding_not_mem : stdPadding ∉ encodeStd := by decide

theorem base64Encode_length (l : Bytes) :
    (base64Encode l).length = 4 * ((l.length + 2) / 3) := by
  induction l using base64Encode.induct with
  | case1 => rfl
  | case2 a => simp [base64Encode]
  | case3 a b => simp [base64Encode]
  | case4 a b c rest ih =>
    simp only [base64Encode, List.length_cons, ih]
    omega

/-- When two bytes remain after the last full group of three, the encoding is a
run of alphabet digits followed by one padding character. -/
theorem base64Encode_rem_two (l : Bytes) (h : l.length % 3 = 2) :
    ∃ digits, base64Encode l = digits ++ [stdPadding] ∧ ∀ x ∈ digits, x ∈ encodeStd := by
  induction l using base64Encode.induct with
  | case1 => simp at h
  | case2 a => simp at h
  | case3 a b =>
    refine ⟨[b64Digit ((a.toNat <<< 16 ||| b.toNat <<< 8) >>> 18),
      b64Digit ((a.toNat <<< 16 ||| b.toNat <<< 8) >>> 12),
      b64Digit ((a.toNat <<< 16 ||| b.toNat <<< 8) >>> 6)], by simp [base64Encode], ?_⟩
    intro x hx
    simp only [List.mem_cons, List.mem_singleton, List.not_mem_nil, or_false] at hx
    rcases hx with rfl | rfl | rfl <;> exact b64Digit_mem _
  | case4 a b c rest ih =>
    have h2 : rest.length % 3 = 2 := by
      simp only [List.length_cons] at h
      omega
    obtain ⟨ds, hds, hmem⟩ := ih h2
    refine ⟨b64Digit ((a.toNat <<< 16 ||| b.toNat <<< 8 ||| c.toNat) >>> 18) ::
      b64Digit ((a.toNat <<< 16 ||| b.toNat <<< 8 ||| c.toNat) >>> 12) ::
      b64Digit ((a.toNat <<< 16 ||| b.toNat <<< 8 ||| c.toNat) >>> 6) ::
      b64Digit (a.toNat <<< 16 ||| b.toNat <<< 8 ||| c.toNat) :: ds, by simp [base64Encode, hds], ?_⟩
    intro x hx
    simp only [List.mem_cons] at hx
    rcases hx with rfl | rfl | rfl | rfl | hx
    · exact b64Digit_mem _
    · exact b64Digit_mem _
    · exact b64Digit_mem _
    · exact b64Digit_mem _
    · exact hmem x hx

theorem GetSignature_eq (secret body time : Bytes) :
    GetSignature secret body time =
      base64Encode (sha256 (time ++ bytesOf "|" ++ hexEncode (md5 body) ++ bytesOf "|" ++ secret)) := by
  simp [GetSignature, Hash.WriteString, Hash.Sum, sha256New, md5New]

theorem GetSignature_length (secret body time : Bytes) :
    (GetSignature secret body time).length = 44 := by
  rw [GetSignature_eq, base64Encode_length, sha256_length]

theorem GetSignature_ne_nil (secret body time : Bytes) : GetSignature secret body time ≠ [] := by
  intro h
  have := GetSignature_length secret body time
  rw [h] at this
  simp at this

theorem GetSession_eq (c : Collection) :
    GetSession c = hexEncode (md5 (c.DeviceId ++ bytesOf ":" ++ c.ClientId ++ bytesOf ":" ++
      c.SystemVersion ++ bytesOf ":" ++ c.ProductVersion)) := by
  simp [GetSession, Hash.WriteString, Hash.Sum, md5New]

theorem GetSession_length (c : Collection) : (GetSession c).length = 32 := by
  rw [GetSession_eq, hexEncode_length, md5_length]

/-! ## The handler, branch by branch -/

theorem BroadcastError_fst (env : Env) (s : Server) (w : ResponseWriter) (err : Bytes)
    (code : Nat) :
    (BroadcastError env s w err code).1 = { s with logged := s.logged ++ [err] } := by
  by_cases h : s.verbose = true <;> simp [BroadcastError, h]

theorem BroadcastError_quiet (env : Env) (s : Server) (w : ResponseWriter) (err : Bytes)
    (code : Nat) (h : s.verbose = false) : (BroadcastError env s w err code).2 = w := by
  simp [BroadcastError, h]

theorem BroadcastError_verbose (env : Env) (s : Server) (w : ResponseWriter) (err : Bytes)
    (code : Nat) (h : s.verbose = true) :
    (BroadcastError env s w err code).2 =
      ((w.SetHeader "Content-Type" "application/json").WriteHeader code).Write
        (bytesOf "\x7b\"error\":" ++ env.quote err ++ bytesOf "\x7d") := by
  simp [BroadcastError, h]

theorem foldl_send_jobQueue (f : Payload → Job) (ps : List Payload) (s : Server) :
    (ps.foldl (fun st payload => st.send (f payload)) s).jobQueue = s.jobQueue ++ ps.map f := by
  induction ps generalizing s with
  | nil => simp
  | cons p ps ih =>
    simp only [List.foldl_cons, List.map_cons]
    rw [ih]
    simp [Server.send]

theorem foldl_send_logged (f : Payload → Job) (ps : List Payload) (s : Server) :
    (ps.foldl (fun st payload => st.send (f payload)) s).logged = s.logged := by
  induction ps generalizing s with
  | nil => simp
  | cons p ps ih =>
    simp only [List.foldl_cons]
    rw [ih]
    rfl

/-- The state in which the handler reaches its method check: the draining branch
reports the shutdown and falls through. -/
theorem TrackHandler_pass (env : Env) (s : Server) (w : ResponseWriter) (r : Request)
    (c : Collection)
    (hm : r.Method = bytesOf "POST")
    (ht : headerGet r.Header "X-Hamustro-Time" ≠ [])
    (hsig : headerGet r.Header "X-Hamustro-Signature" =
      GetSignature s.sharedSecret r.Body (headerGet r.Header "X-Hamustro-Time"))
    (hdec : env.unmarshal r.Body = .ok c)
    (hses : c.Session = GetSession c) :
    (TrackHandler env s w r).1.jobQueue =
        s.jobQueue ++ c.Payloads.map (fun payload => ⟨NewEvent env c payload, 1⟩)
      ∧ (TrackHandler env s w r).2 =
        (if s.isTerminating then
          (BroadcastError env s w (bytesOf "Server is currenly shutting down") 503).2
         else w).WriteHeader 200 := by
  have hne : headerGet r.Header "X-Hamustro-Signature" ≠ [] := by
    rw [hsig]; exact GetSignature_ne_nil _ _ _
  unfold TrackHandler
  by_cases hd : s.isTerminating = true
  · simp [hd, hm, ht, hne, BroadcastError_fst, hsig.symm, hdec, ← hses, foldl_send_jobQueue]
  · simp [hd, hm, ht, hne, hsig.symm, hdec, ← hses, foldl_send_jobQueue]

theorem TrackHandler_pass_logged (env : Env) (s : Server) (w : ResponseWriter) (r : Request)
    (c : Collection)
    (hdrain : s.isTerminating = false)
    (hm : r.Method = bytesOf "POST")
    (ht : headerGet r.Header "X-Hamustro-Time" ≠ [])
    (hsig : headerGet r.Header "X-Hamustro-Signature" =
      GetSignature s.sharedSecret r.Body (headerGet r.Header "X-Hamustro-Time"))
    (hdec : env.unmarshal r.Body = .ok c)
    (hses : c.Session = GetSession c) :
    (TrackHandler env s w r).1.logged = s.logged := by
  have hne : headerGet r.Header "X-Hamustro-Signature" ≠ [] := by
    rw [hsig]; exact GetSignature_ne_nil _ _ _
  unfold TrackHandler
  simp [hdrain, hm, ht, hne, hsig.symm, hdec, ← hses, foldl_send_logged]

section Branches

variable (env : Env) (s : Server) (w : ResponseWriter) (r : Request)

theorem TrackHandler_method (hdrain : s.isTerminating = false) (hm : r.Method ≠ bytesOf "POST") :
    TrackHandler env s w r = BroadcastError env s w (bytesOf "Sending method is not POST") 405 := by
  simp [TrackHandler, hdrain, hm]

theorem TrackHandler_time (hdrain : s.isTerminating = false) (hm : r.Method = bytesOf "POST")
    (ht : headerGet r.Header "X-Hamustro-Time" = []) :
    TrackHandler env s w r =
      BroadcastError env s w (bytesOf "X-Hamustro-Time header is missing") 405 := by
  simp [TrackHandler, hdrain, hm, ht]

theorem TrackHandler_signature (hdrain : s.isTerminating = false)
    (hm : r.Method = bytesOf "POST") (ht : headerGet r.Header "X-Hamustro-Time" ≠ [])
    (hp : headerGet r.Header "X-Hamustro-Signature" ≠ [])
    (hs : headerGet r.Header "X-Hamustro-Signature" ≠
      GetSignature s.sharedSecret r.Body (headerGet r.Header "X-Hamustro-Time")) :
    TrackHandler env s w r =
      BroadcastError env s w (bytesOf "X-Hamustro-Signature header is invalid") 405 := by
  simp [TrackHandler, hdrain, hm, ht, hp, hs]

theorem TrackHandler_signature_missing (hdrain : s.isTerminating = false)
    (hm : r.Method = bytesOf "POST") (ht : headerGet r.Header "X-Hamustro-Time" ≠ [])
    (hp : headerGet r.Header "X-Hamustro-Signature" = []) :
    TrackHandler env s w r =
      BroadcastError env
        (BroadcastError env s w (bytesOf "X-Hamustro-Signature header is missing") 405).1
        (BroadcastError env s w (bytesOf "X-Hamustro-Signature header is missing") 405).2
        (bytesOf "X-Hamustro-Signature header is invalid") 405 := by
  have hne : ∀ x y z, ([] : Bytes) ≠ GetSignature x y z := fun x y z h =>
    GetSignature_ne_nil x y z h.symm
  simp [TrackHandler, hdrain, hm, ht, hp, hne]

theorem TrackHandler_decode (hdrain : s.isTerminating = false)
    (hm : r.Method = bytesOf "POST") (ht : headerGet r.Header "X-Hamustro-Time" ≠ [])
    (hs : headerGet r.Header "X-Hamustro-Signature" =
      GetSignature s.sharedSecret r.Body (headerGet r.Header "X-Hamustro-Time"))
    (err : Bytes) (hdec : env.unmarshal r.Body = .error err) :
    TrackHandler env s w r =
      BroadcastError env s w (bytesOf "Unmarshaling protobuf collection is failed: " ++ err)
        400 := by
  have hp : headerGet r.Header "X-Hamustro-Signature" ≠ [] := by
    rw [hs]; exact GetSignature_ne_nil _ _ _
  simp [TrackHandler, hdrain, hm, ht, hp, hs.symm, hdec]

theorem TrackHandler_session (hdrain : s.isTerminating = false)
    (hm : r.Method = bytesOf "POST") (ht : headerGet r.Header "X-Hamustro-Time" ≠ [])
    (hs : headerGet r.Header "X-Hamustro-Signature" =
      GetSignature s.sharedSecret r.Body (headerGet r.Header "X-Hamustro-Time"))
    (c : Collection) (hdec : env.unmarshal r.Body = .ok c) (hses : c.Session ≠ GetSession c) :
    TrackHandler env s w r =
      BroadcastError env s w (bytesOf "Collection's session attribute is invalid") 400 := by
  have hp : headerGet r.Header "X-Hamustro-Signature" ≠ [] := by
    rw [hs]; exact GetSignature_ne_nil _ _ _
  have hses2 : GetSession c ≠ c.Session := fun h => hses h.symm
  simp [TrackHandler, hdrain, hm, ht, hp, hs.symm, hdec, hses2]

end Branches

theorem BroadcastError_fresh_verbose (env : Env) (s : Server) (err : Bytes) (code : Nat)
    (h : s.verbose = true) :
    (BroadcastError env s ResponseWriter.fresh err code).2.replyStatus = code
      ∧ (BroadcastError env s ResponseWriter.fresh err code).2.body = errorBody env err := by
  simp [BroadcastError_verbose, h, ResponseWriter.fresh, ResponseWriter.SetHeader,
    ResponseWriter.WriteHeader, ResponseWriter.Write, ResponseWriter.replyStatus, errorBody]

/-! ## The claims on the intake handler -/

/-- C2: a request that fails one of the intake checks (method, time header, signature
header, signature, decoding, session) leaves the job queue unchanged, whatever the
draining flag and the verbose flag are; this covers a missing signature header for
every body, time and shared secret. -/
theorem TrackHandler_rejected_no_enqueue (env : Env) (s : Server) (w : ResponseWriter)
    (r : Request)
    (h : r.Method ≠ bytesOf "POST"
      ∨ headerGet r.Header "X-Hamustro-Time" = []
      ∨ headerGet r.Header "X-Hamustro-Signature" = []
      ∨ headerGet r.Header "X-Hamustro-Signature" ≠
          GetSignature s.sharedSecret r.Body (headerGet r.Header "X-Hamustro-Time")
      ∨ (∃ err, env.unmarshal r.Body = .error err)
      ∨ (∃ c, env.unmarshal r.Body = .ok c ∧ c.Session ≠ GetSession c)) :
    (TrackHandler env s w r).1.jobQueue = s.jobQueue := by
  have hmiss : headerGet r.Header "X-Hamustro-Signature" = [] →
      headerGet r.Header "X-Hamustro-Signature" ≠
        GetSignature s.sharedSecret r.Body (headerGet r.Header "X-Hamustro-Time") := by
    intro h0 h1
    exact GetSignature_ne_nil _ _ _ (h1.symm.trans h0)
  unfold TrackHandler
  split_ifs <;> simp_all [BroadcastError_fst, foldl_send_jobQueue]
  all_goals
    by_cases hs : headerGet r.Header "X-Hamustro-Signature" =
        GetSignature s.sharedSecret r.Body (headerGet r.Header "X-Hamustro-Time")
    · rw [if_pos hs]
      cases hu : env.unmarshal r.Body with
      | error e => simp [BroadcastError_fst]
      | ok c =>
        by_cases hc : GetSession c = c.Session
        · exfalso
          rcases h with h | ⟨e, he⟩ | ⟨c2, hc2, hne⟩
          · exact h hs
          · rw [hu] at he; cases he
          · rw [hu] at hc2; cases hc2; exact hne hc.symm
        · simp [hc, BroadcastError_fst]
    · rw [if_neg hs]
      simp [BroadcastError_fst]

/-- The witness of C2: a POST without a signature header, to be decoded as a valid
collection, is stopped at the signature comparison and enqueues nothing. -/
theorem TrackHandler_rejected_no_enqueue_witness :
    headerGet (testRequest "POST" "" testBody).Header "X-Hamustro-Signature" = []
      ∧ (TrackHandler testEnv (testServer false false) ResponseWriter.fresh
          (testRequest "POST" "" testBody)).1.jobQueue = (testServer false false).jobQueue :=
  ⟨by decide,
   TrackHandler_rejected_no_enqueue testEnv (testServer false false) ResponseWriter.fresh
     (testRequest "POST" "" testBody) (Or.inr (Or.inr (Or.inl (by decide))))⟩

/-- C1: a request that passes every intake check while the server is not draining
pushes one job per payload, in payload order, each `(NewEvent(collection, payload), 1)`,
behind the jobs already queued, and is answered with status 200; the number of jobs
enqueued is the number of payloads. -/
theorem TrackHandler_accepted_enqueues (env : Env) (s : Server) (r : Request) (c : Collection)
    (hdrain : s.isTerminating = false)
    (hm : r.Method = bytesOf "POST")
    (ht : headerGet r.Header "X-Hamustro-Time" ≠ [])
    (hsig : headerGet r.Header "X-Hamustro-Signature" =
      GetSignature s.sharedSecret r.Body (headerGet r.Header "X-Hamustro-Time"))
    (hdec : env.unmarshal r.Body = .ok c)
    (hses : c.Session = GetSession c) :
    (TrackHandler env s ResponseWriter.fresh r).1.jobQueue =
        s.jobQueue ++ c.Payloads.map (fun payload => ⟨NewEvent env c payload, 1⟩)
      ∧ (TrackHandler env s ResponseWriter.fresh r).1.jobQueue.length =
        s.jobQueue.length + c.Payloads.length
      ∧ (TrackHandler env s ResponseWriter.fresh r).2.replyStatus = 200 := by
  obtain ⟨hq, hw⟩ := TrackHandler_pass env s ResponseWriter.fresh r c hm ht hsig hdec hses
  refine ⟨hq, ?_, ?_⟩
  · rw [hq]; simp
  · rw [hw]
    simp [hdrain, ResponseWriter.fresh, ResponseWriter.WriteHeader, ResponseWriter.replyStatus]

set_option maxRecDepth 1000000 in
/-- The witness of C1: the signed request for the test collection, one payload. -/
theorem TrackHandler_accepted_enqueues_witness :
    (TrackHandler testEnv (testServer false false) ResponseWriter.fresh
        (testRequest "POST" testSignature testBody)).1.jobQueue =
        (testServer false false).jobQueue ++
          testCollection.Payloads.map (fun payload => ⟨NewEvent testEnv testCollection payload, 1⟩)
      ∧ (TrackHandler testEnv (testServer false false) ResponseWriter.fresh
        (testRequest "POST" testSignature testBody)).1.jobQueue.length =
        (testServer false false).jobQueue.length + testCollection.Payloads.length
      ∧ (TrackHandler testEnv (testServer false false) ResponseWriter.fresh
        (testRequest "POST" testSignature testBody)).2.replyStatus = 200 :=
  TrackHandler_accepted_enqueues testEnv (testServer false false)
    (testRequest "POST" testSignature testBody) testCollection rfl (by decide) (by decide)
    (by decide) (by rfl) (by decide)

set_option maxRecDepth 1000000 in
/-- C3, as stated, fails: with verbose mode off a GET request is answered with
status 200, not 405. -/
theorem TrackHandler_quiet_get_status :
    (testServer false false).verbose = false
      ∧ (testRequest "GET" testSignature testBody).Method ≠ bytesOf "POST"
      ∧ (TrackHandler testEnv (testServer false false) ResponseWriter.fresh
          (testRequest "GET" testSignature testBody)).2.replyStatus = 200
      ∧ (TrackHandler testEnv (testServer true false) ResponseWriter.fresh
          (testRequest "GET" testSignature testBody)).2.replyStatus = 405 := by
  decide

/-- C3, amended: while the server is not draining, in verbose mode the status is the
one of the intake table (405 for method, time header, signature header, signature;
400 for decoding and session; 200 otherwise) and, unless the request is a POST with a
time header and no signature header, the body is `{"error": message}` on a rejection
and empty on acceptance; with verbose mode off the handler writes neither status nor
body on a rejection, so every request is answered with status 200 and an empty body. -/
theorem TrackHandler_status_by_mode (env : Env) (s : Server) (r : Request)
    (hdrain : s.isTerminating = false) :
    (s.verbose = true →
        (TrackHandler env s ResponseWriter.fresh r).2.replyStatus =
          intakeStatus env s.sharedSecret r
        ∧ ((r.Method ≠ bytesOf "POST" ∨ headerGet r.Header "X-Hamustro-Time" = []
              ∨ headerGet r.Header "X-Hamustro-Signature" ≠ []) →
            (TrackHandler env s ResponseWriter.fresh r).2.body =
              match intakeError env s.sharedSecret r with
              | some err => errorBody env err
              | none => []))
      ∧ (s.verbose = false →
        (TrackHandler env s ResponseWriter.fresh r).2.replyStatus = 200
        ∧ (TrackHandler env s ResponseWriter.fresh r).2.body = []) := by
  have hq : ∀ (st : Server) (w : ResponseWriter) (e : Bytes) (code : Nat), st.verbose = false →
      (BroadcastError env st w e code).2 = w := fun st w e code h =>
    BroadcastError_quiet env st w e code h
  have hfresh : ResponseWriter.fresh.replyStatus = 200 ∧ ResponseWriter.fresh.body = [] := by
    simp [ResponseWriter.fresh, ResponseWriter.replyStatus]
  by_cases hm : r.Method = bytesOf "POST"
  swap
  · rw [TrackHandler_method env s _ r hdrain hm]
    refine ⟨fun hv => ?_, fun hv => ?_⟩
    · have := BroadcastError_fresh_verbose env s (bytesOf "Sending method is not POST") 405 hv
      simp [intakeStatus, intakeError, hm, this]
    · rw [hq s _ _ _ hv]; exact hfresh
  by_cases ht : headerGet r.Header "X-Hamustro-Time" = []
  · rw [TrackHandler_time env s _ r hdrain hm ht]
    refine ⟨fun hv => ?_, fun hv => ?_⟩
    · have := BroadcastError_fresh_verbose env s (bytesOf "X-Hamustro-Time header is missing")
        405 hv
      simp [intakeStatus, intakeError, hm, ht, this]
    · rw [hq s _ _ _ hv]; exact hfresh
  by_cases hp : headerGet r.Header "X-Hamustro-Signature" = []
  · rw [TrackHandler_signature_missing env s _ r hdrain hm ht hp]
    refine ⟨fun hv => ?_, fun hv => ?_⟩
    · refine ⟨?_, fun h => ?_⟩
      · simp [BroadcastError_verbose, BroadcastError_fst, hv, ResponseWriter.fresh,
          ResponseWriter.SetHeader, ResponseWriter.WriteHeader, ResponseWriter.Write,
          ResponseWriter.replyStatus, intakeStatus, hm, ht, hp]
      · rcases h with h | h | h
        · exact absurd hm h
        · exact absurd h ht
        · exact absurd hp h
    · rw [hq _ _ _ _ (by rw [BroadcastError_fst]; exact hv), hq s _ _ _ hv]; exact hfresh
  by_cases hs : headerGet r.Header "X-Hamustro-Signature" =
      GetSignature s.sharedSecret r.Body (headerGet r.Header "X-Hamustro-Time")
  swap
  · rw [TrackHandler_signature env s _ r hdrain hm ht hp hs]
    refine ⟨fun hv => ?_, fun hv => ?_⟩
    · have := BroadcastError_fresh_verbose env s
        (bytesOf "X-Hamustro-Signature header is invalid") 405 hv
      simp [intakeStatus, intakeError, hm, ht, hp, hs, this]
    · rw [hq s _ _ _ hv]; exact hfresh
  cases hu : env.unmarshal r.Body with
  | error e =>
    rw [TrackHandler_decode env s _ r hdrain hm ht hs e hu]
    refine ⟨fun hv => ?_, fun hv => ?_⟩
    · have := BroadcastError_fresh_verbose env s
        (bytesOf "Unmarshaling protobuf collection is failed: " ++ e) 400 hv
      simp [intakeStatus, intakeError, hm, ht, hp, hs.symm, hu, this]
    · rw [hq s _ _ _ hv]; exact hfresh
  | ok c =>
    by_cases hc : c.Session = GetSession c
    · obtain ⟨-, hw⟩ := TrackHandler_pass env s ResponseWriter.fresh r c hm ht hs hu hc
      rw [hw]
      have h200 : (ResponseWriter.fresh.WriteHeader 200).replyStatus = 200
          ∧ (ResponseWriter.fresh.WriteHeader 200).body = [] := by
        simp [ResponseWriter.fresh, ResponseWriter.WriteHeader, ResponseWriter.replyStatus]
      refine ⟨fun _ => ?_, fun _ => ?_⟩
      · simp [hdrain, intakeStatus, intakeError, hm, ht, hp, hs.symm, hu, ← hc, h200]
      · simp [hdrain, h200]
    · rw [TrackHandler_session env s _ r hdrain hm ht hs c hu hc]
      have hc2 : GetSession c ≠ c.Session := fun h => hc h.symm
      refine ⟨fun hv => ?_, fun hv => ?_⟩
      · have := BroadcastError_fresh_verbose env s
          (bytesOf "Collection's session attribute is invalid") 400 hv
        simp [intakeStatus, intakeError, hm, ht, hp, hs.symm, hu, hc2, this]
      · rw [hq s _ _ _ hv]; exact hfresh

set_option maxRecDepth 1000000 in
/-- The witness of C3 (amended): in verbose mode a POST with a wrong signature is
answered 405 with the error object as body. -/
theorem TrackHandler_status_by_mode_witness :
    (TrackHandler testEnv (testServer true false) ResponseWriter.fresh
        (testRequest "POST" forgedSignature testBody)).2.replyStatus = 405
      ∧ (TrackHandler testEnv (testServer true false) ResponseWriter.fresh
        (testRequest "POST" forgedSignature testBody)).2.body =
          bytesOf "\x7b\"error\":\"X-Hamustro-Signature header is invalid\"\x7d" := by
  have h := (TrackHandler_status_by_mode testEnv (testServer true false)
    (testRequest "POST" forgedSignature testBody) rfl).1 rfl
  refine ⟨h.1.trans (by decide), (h.2 (Or.inr (Or.inr (by decide)))).trans (by decide)⟩

set_option maxRecDepth 1000000 in
/-- C4: the code at the failing input. A fully valid request received while the server
is draining is enqueued all the same: the draining branch reports the shutdown and does
not return. The reply is 200 with verbose mode off and 503 with verbose mode on. -/
theorem TrackHandler_draining_enqueues :
    (testServer false true).isTerminating = true
      ∧ (TrackHandler testEnv (testServer false true) ResponseWriter.fresh
          (testRequest "POST" testSignature testBody)).1.jobQueue =
          testCollection.Payloads.map (fun payload => ⟨NewEvent testEnv testCollection payload, 1⟩)
      ∧ (TrackHandler testEnv (testServer false true) ResponseWriter.fresh
          (testRequest "POST" testSignature testBody)).1.jobQueue.length = 1
      ∧ (TrackHandler testEnv (testServer false true) ResponseWriter.fresh
          (testRequest "POST" testSignature testBody)).2.replyStatus = 200
      ∧ (TrackHandler testEnv (testServer true true) ResponseWriter.fresh
          (testRequest "POST" testSignature testBody)).1.jobQueue.length = 1
      ∧ (TrackHandler testEnv (testServer true true) ResponseWriter.fresh
          (testRequest "POST" testSignature testBody)).2.replyStatus = 503 := by
  decide

set_option maxRecDepth 1000000 in
/-- C5, as stated, fails: with verbose mode off a request that passes the signature
check and decodes to a collection whose declared session is not the derived one is
answered with status 200, not 400 (nothing is enqueued). -/
theorem TrackHandler_quiet_session_status :
    headerGet (testRequest "POST" forgedSignature forgedBody).Header "X-Hamustro-Signature" =
        GetSignature (testServer false false).sharedSecret
          (testRequest "POST" forgedSignature forgedBody).Body
          (headerGet (testRequest "POST" forgedSignature forgedBody).Header "X-Hamustro-Time")
      ∧ testEnv.unmarshal (testRequest "POST" forgedSignature forgedBody).Body =
        .ok forgedCollection
      ∧ forgedCollection.Session ≠ GetSession forgedCollection
      ∧ (TrackHandler testEnv (testServer false false) ResponseWriter.fresh
          (testRequest "POST" forgedSignature forgedBody)).2.replyStatus = 200
      ∧ (TrackHandler testEnv (testServer false false) ResponseWriter.fresh
          (testRequest "POST" forgedSignature forgedBody)).1.jobQueue = [] :=
  ⟨by decide, by rfl, by decide, by decide, by decide⟩

/-- C5, amended: `GetSession` is the lowercase hexadecimal MD5 digest, 32 characters, of
`device_id:client_id:system_version:product_version` and of nothing else; and among the
requests that pass the signature check and decode while the server is not draining, the
handler rejects (nothing enqueued, the session error logged, status 400 when verbose
mode is on) exactly those whose declared session differs from it, and accepts the others
(status 200), so every enqueued record carries the derived session of its collection. -/
theorem GetSession_derivation_and_check (env : Env) (s : Server) (r : Request) (c : Collection)
    (hdrain : s.isTerminating = false)
    (hm : r.Method = bytesOf "POST")
    (ht : headerGet r.Header "X-Hamustro-Time" ≠ [])
    (hsig : headerGet r.Header "X-Hamustro-Signature" =
      GetSignature s.sharedSecret r.Body (headerGet r.Header "X-Hamustro-Time"))
    (hdec : env.unmarshal r.Body = .ok c) :
    GetSession c = hexEncode (md5 (c.DeviceId ++ bytesOf ":" ++ c.ClientId ++ bytesOf ":" ++
        c.SystemVersion ++ bytesOf ":" ++ c.ProductVersion))
      ∧ (GetSession c).length = 32
      ∧ (∀ x ∈ GetSession c, x ∈ bytesOf "0123456789abcdef")
      ∧ (∀ c2 : Collection, c2.DeviceId = c.DeviceId → c2.ClientId = c.ClientId →
          c2.SystemVersion = c.SystemVersion → c2.ProductVersion = c.ProductVersion →
          GetSession c2 = GetSession c)
      ∧ (c.Session ≠ GetSession c →
          (TrackHandler env s ResponseWriter.fresh r).1.jobQueue = s.jobQueue
          ∧ (TrackHandler env s ResponseWriter.fresh r).1.logged =
              s.logged ++ [bytesOf "Collection's session attribute is invalid"]
          ∧ (s.verbose = true → (TrackHandler env s ResponseWriter.fresh r).2.replyStatus = 400))
      ∧ (c.Session = GetSession c →
          (TrackHandler env s ResponseWriter.fresh r).1.jobQueue =
              s.jobQueue ++ c.Payloads.map (fun payload => ⟨NewEvent env c payload, 1⟩)
          ∧ (TrackHandler env s ResponseWriter.fresh r).1.logged = s.logged
          ∧ (TrackHandler env s ResponseWriter.fresh r).2.replyStatus = 200
          ∧ ∀ payload ∈ c.Payloads, (NewEvent env c payload).Session = GetSession c) := by
  refine ⟨GetSession_eq c, GetSession_length c, ?_, ?_, ?_, ?_⟩
  · intro x hx
    rw [GetSession_eq] at hx
    exact hexEncode_mem _ x hx
  · intro c2 h1 h2 h3 h4
    rw [GetSession_eq, GetSession_eq, h1, h2, h3, h4]
  · intro hne
    rw [TrackHandler_session env s _ r hdrain hm ht hsig c hdec hne]
    refine ⟨by rw [BroadcastError_fst], by rw [BroadcastError_fst], fun hv => ?_⟩
    exact (BroadcastError_fresh_verbose env s _ 400 hv).1
  · intro heq
    obtain ⟨hq, hw⟩ := TrackHandler_pass env s ResponseWriter.fresh r c hm ht hsig hdec heq
    refine ⟨hq, TrackHandler_pass_logged env s _ r c hdrain hm ht hsig hdec heq, ?_, ?_⟩
    · rw [hw]
      simp [hdrain, ResponseWriter.fresh, ResponseWriter.WriteHeader, ResponseWriter.replyStatus]
    · intro payload _
      exact heq

set_option maxRecDepth 1000000 in
/-- The witness of C5 (amended): the signed request for the test collection, whose
declared session `244f056dee6d475ec673ea0d20b69bab` is the derived one. -/
theorem GetSession_derivation_and_check_witness :
    GetSession testCollection = bytesOf "244f056dee6d475ec673ea0d20b69bab"
      ∧ testCollection.Session = GetSession testCollection
      ∧ (TrackHandler testEnv (testServer true false) ResponseWriter.fresh
          (testRequest "POST" testSignature testBody)).2.replyStatus = 200 :=
  ⟨by decide, by decide,
   ((GetSession_derivation_and_check testEnv (testServer true false)
      (testRequest "POST" testSignature testBody) testCollection rfl (by decide) (by decide)
      (by decide) (by rfl)).2.2.2.2.2 (by decide)).2.2.1⟩

/-! ## The claim on the signature -/

/-- C6: `GetSignature(body, time)` is the standard-alphabet, padded base64 encoding of
SHA-256 over `time | lowercase-hex(MD5(body)) | shared_secret`; equal inputs give equal
signatures; the result has 44 characters: 43 digits of the standard alphabet, none of
them the padding character, followed by exactly one `=`. -/
theorem GetSignature_spec (secret body time : Bytes) :
    GetSignature secret body time =
        base64Encode (sha256 (time ++ bytesOf "|" ++ hexEncode (md5 body) ++ bytesOf "|" ++ secret))
      ∧ (∀ x ∈ hexEncode (md5 body), x ∈ bytesOf "0123456789abcdef")
      ∧ (∀ secret2 body2 time2 : Bytes, secret2 = secret → body2 = body → time2 = time →
          GetSignature secret2 body2 time2 = GetSignature secret body time)
      ∧ (GetSignature secret body time).length = 44
      ∧ ∃ digits : Bytes, GetSignature secret body time = digits ++ [byteOf '=']
          ∧ digits.length = 43
          ∧ (∀ x ∈ digits, x ∈
              bytesOf "ABCDEFGHIJKLMNOPQRSTUVWXYZabcdefghijklmnopqrstuvwxyz0123456789+/")
          ∧ byteOf '=' ∉ digits := by
  refine ⟨GetSignature_eq _ _ _, hexEncode_mem _, ?_, GetSignature_length _ _ _, ?_⟩
  · intro s2 b2 t2 h1 h2 h3
    rw [h1, h2, h3]
  · have hlen := GetSignature_length secret body time
    rw [GetSignature_eq] at hlen ⊢
    obtain ⟨ds, hds, hmem⟩ := base64Encode_rem_two
      (sha256 (time ++ bytesOf "|" ++ hexEncode (md5 body) ++ bytesOf "|" ++ secret))
      (by rw [sha256_length])
    refine ⟨ds, hds, ?_, hmem, fun h => stdPadding_not_mem (hmem _ h)⟩
    rw [hds] at hlen
    simpa using hlen

/-! ## The JSON encodings -/

theorem byte_ne_newline_of_ge (y : UInt8) (h : 0x80 ≤ y.toNat) : y ≠ byteOf '\n' := by
  intro h2
  rw [h2] at h
  revert h
  decide

/-- The bytes `encodeState.string` copies for a rune that starts with a byte from
`0x80` on are all from `0x80` on. -/
theorem decodeRune_take_high (b0 : UInt8) (rest : Bytes) (h : 0x80 ≤ b0.toNat) :
    ∀ y ∈ (b0 :: rest).take (decodeRune (b0 :: rest)).2, 0x80 ≤ y.toNat := by
  intro y hy
  rcases rest with _ | ⟨b1, _ | ⟨b2, _ | ⟨b3, tail⟩⟩⟩ <;>
    simp only [decodeRune] at hy <;> split_ifs at hy <;> simp at hy <;>
    (try omega) <;> (obtain rfl | rfl | rfl | rfl := hy) <;> omega

theorem hexDigit_ne_newline (n : Nat) : hexDigit n ≠ byteOf '\n' := by
  intro h
  have hm := hexDigit_mem n
  rw [h] at hm
  revert hm
  decide

theorem jsonEscapeByte_no_newline (b : UInt8) : byteOf '\n' ∉ jsonEscapeByte b := by
  unfold jsonEscapeByte
  split_ifs with h1 h2 h3 h4 h5
  · intro hm
    simp only [List.mem_singleton] at hm
    rw [← hm] at h1
    revert h1
    decide
  · rcases h2 with rfl | rfl <;> decide
  · decide
  · decide
  · decide
  · intro hm
    simp only [List.mem_append, List.mem_cons, List.mem_singleton, List.not_mem_nil,
      or_false] at hm
    rcases hm with hm | hm | hm
    · revert hm; decide
    · exact hexDigit_ne_newline _ hm.symm
    · exact hexDigit_ne_newline _ hm.symm

theorem jsonStringLoop_no_newline (fuel : Nat) (s : Bytes) :
    byteOf '\n' ∉ jsonStringLoop fuel s := by
  induction fuel generalizing s with
  | zero => simp [jsonStringLoop]
  | succ fuel ih =>
    cases s with
    | nil => simp [jsonStringLoop]
    | cons b rest =>
      simp only [jsonStringLoop]
      split_ifs with h1 h2 h3
      · simp only [List.mem_append, not_or]
        exact ⟨jsonEscapeByte_no_newline b, ih rest⟩
      · simp only [List.mem_append, not_or]
        exact ⟨by decide, ih rest⟩
      · simp only [List.mem_append, List.mem_singleton, not_or]
        exact ⟨⟨by decide, fun h => hexDigit_ne_newline _ h.symm⟩, ih _⟩
      · simp only [List.mem_append, not_or]
        refine ⟨fun hm => ?_, ih _⟩
        exact byte_ne_newline_of_ge _
          (decodeRune_take_high b rest (by omega) _ hm) rfl

theorem jsonString_no_newline (s : Bytes) : byteOf '\n' ∉ jsonString s := by
  unfold jsonString
  simp only [List.mem_append, List.mem_singleton, not_or]
  exact ⟨⟨by decide, jsonStringLoop_no_newline _ _⟩, by decide⟩

theorem digit_ne_newline (d : Nat) (h : d < 10) : UInt8.ofNat (48 + d) ≠ byteOf '\n' := by
  interval_cases d <;> decide

theorem decimalLoop_no_newline (fuel n : Nat) (acc : Bytes) (h : byteOf '\n' ∉ acc) :
    byteOf '\n' ∉ decimalLoop fuel n acc := by
  induction fuel generalizing n acc with
  | zero => simpa [decimalLoop] using h
  | succ fuel ih =>
    simp only [decimalLoop]
    split_ifs with h1
    · simp only [List.mem_cons, not_or]
      exact ⟨fun e => digit_ne_newline n h1 e.symm, h⟩
    · apply ih
      simp only [List.mem_cons, not_or]
      exact ⟨fun e => digit_ne_newline (n % 10) (Nat.mod_lt _ (by decide)) e.symm, h⟩

theorem jsonUint_no_newline (n : UInt32) : byteOf '\n' ∉ jsonUint n :=
  decimalLoop_no_newline _ _ [] (by simp)

theorem jsonBool_no_newline (b : Bool) : byteOf '\n' ∉ jsonBool b := by
  cases b <;> decide

theorem jsonOmitString_no_newline (key : String) (v : Bytes)
    (h : byteOf '\n' ∉ bytesOf key) : byteOf '\n' ∉ jsonOmitString key v := by
  unfold jsonOmitString
  split_ifs
  · simp
  · simp only [List.mem_append, not_or]
    exact ⟨h, jsonString_no_newline v⟩

theorem jsonMarshalEvent_no_newline (e : Event) : byteOf '\n' ∉ jsonMarshalEvent e := by
  unfold jsonMarshalEvent
  simp only [List.mem_append, not_or]
  repeat' apply And.intro
  all_goals first
    | exact jsonString_no_newline _
    | exact jsonUint_no_newline _
    | exact jsonBool_no_newline _
    | exact jsonOmitString_no_newline _ _ (by decide)
    | decide
    | (split_ifs
       · simp
       · simp only [List.mem_append, not_or]
         exact ⟨by decide, jsonUint_no_newline _⟩)

theorem GetJSONMessage_eq (e : Event) :
    GetJSONMessage e = .ok (jsonMarshalEvent e ++ [byteOf '\n']) := rfl

theorem ConvertBatchJSON_from (events : List Event) (buffer : Bytes) :
    events.foldlM (fun buffer event => (ConvertJSON event).map (fun msg => buffer ++ msg)) buffer
      = .ok (buffer ++ events.flatMap (fun e => jsonMarshalEvent e ++ [byteOf '\n'])) := by
  induction events generalizing buffer with
  | nil => simp [pure, Except.pure]
  | cons e es ih =>
    rw [List.foldlM_cons]
    have h : (ConvertJSON e).map (fun msg => buffer ++ msg)
        = .ok (buffer ++ (jsonMarshalEvent e ++ [byteOf '\n'])) := rfl
    rw [h]
    show List.foldlM _ (buffer ++ (jsonMarshalEvent e ++ [byteOf '\n'])) es = _
    rw [ih]
    simp [List.flatMap_cons]

theorem count_newline_lines (events : List Event) :
    (events.flatMap (fun e => jsonMarshalEvent e ++ [byteOf '\n'])).count (byteOf '\n')
      = events.length := by
  induction events with
  | nil => simp
  | cons e es ih =>
    rw [List.flatMap_cons, List.count_append, ih, List.count_append,
      List.count_eq_zero_of_not_mem (jsonMarshalEvent_no_newline e)]
    simp
    omega

/-! ## The claim on the encodings -/

/-- C10: the batch JSON encoding of a sequence of records is the concatenation, in
insertion order, of their single-record encodings; the single-record encoding
(`GetJSONMessage`, `ConvertJSON`) is the marshalled object, which starts with an
opening brace, ends with a closing brace and contains no newline, followed by one
newline; so the batch of n records contains exactly n newlines, one closing each
record. -/
theorem ConvertBatchJSON_lines (events : List Event) :
    ConvertBatchJSON events
        = .ok (events.flatMap (fun e => jsonMarshalEvent e ++ [byteOf '\n']))
      ∧ (∀ e : Event,
          GetJSONMessage e = .ok (jsonMarshalEvent e ++ [byteOf '\n'])
          ∧ ConvertJSON e = .ok (jsonMarshalEvent e ++ [byteOf '\n'])
          ∧ byteOf '\n' ∉ jsonMarshalEvent e
          ∧ (jsonMarshalEvent e ++ [byteOf '\n']).count (byteOf '\n') = 1
          ∧ (jsonMarshalEvent e).head? = some 123
          ∧ (jsonMarshalEvent e).getLast? = some 125)
      ∧ (events.flatMap (fun e => jsonMarshalEvent e ++ [byteOf '\n'])).count (byteOf '\n')
          = events.length := by
  refine ⟨?_, fun e => ⟨rfl, rfl, jsonMarshalEvent_no_newline e, ?_, ?_, ?_⟩,
    count_newline_lines events⟩
  · have h := ConvertBatchJSON_from events []
    simpa [ConvertBatchJSON] using h
  · rw [List.count_append, List.count_eq_zero_of_not_mem (jsonMarshalEvent_no_newline e)]
    simp
  · have h : bytesOf "\x7b\"device_id\":" = 123 :: bytesOf "\"device_id\":" := by decide
    unfold jsonMarshalEvent
    rw [h]
    simp
  · have h : bytesOf "\x7d" = [125] := by decide
    unfold jsonMarshalEvent
    rw [h, List.getLast?_concat]

/-! ## The worker -/

theorem Worker.workBuffered_saved {σ : Type} (sink : Sink σ) (x : Scene σ) (job : Job) :
    (Worker.workBuffered sink x job).saved =
      x.saved ++ (if x.worker.GetBufferSize ≤ x.worker.BufferedEvents.length + 1 then
        [sink.batch_convert (x.worker.BufferedEvents ++ [job.Event])] else []) := by
  unfold Worker.workBuffered
  simp only [Worker.GetBufferSize, List.length_append, List.length_singleton, ge_iff_le]
  split_ifs <;> simp

theorem Worker.workBuffered_below {σ : Type} (sink : Sink σ) (x : Scene σ) (job : Job)
    (h : x.worker.BufferedEvents.length + 1 < x.worker.GetBufferSize) :
    (Worker.workBuffered sink x job).worker =
        { x.worker with BufferedEvents := x.worker.BufferedEvents ++ [job.Event] }
      ∧ (Worker.workBuffered sink x job).sink = x.sink
      ∧ (Worker.workBuffered sink x job).saved = x.saved
      ∧ (Worker.workBuffered sink x job).jobQueue = x.jobQueue := by
  have h2 : ¬ (x.worker.GetBufferSize ≤ x.worker.BufferedEvents.length + 1) := by omega
  unfold Worker.workBuffered
  simp only [Worker.GetBufferSize, List.length_append, List.length_singleton, ge_iff_le] at h2 ⊢
  rw [if_neg h2]
  simp

theorem Worker.runBuffered_below {σ : Type} (sink : Sink σ) (jobs : List Job) (x : Scene σ)
    (h : x.worker.BufferedEvents.length + jobs.length < x.worker.GetBufferSize) :
    (Worker.runBuffered sink x jobs).worker =
        { x.worker with BufferedEvents := x.worker.BufferedEvents ++ jobs.map (fun j => j.Event) }
      ∧ (Worker.runBuffered sink x jobs).sink = x.sink
      ∧ (Worker.runBuffered sink x jobs).saved = x.saved := by
  induction jobs generalizing x with
  | nil => simp [Worker.runBuffered]
  | cons j js ih =>
    simp only [List.length_cons] at h
    obtain ⟨hw, hs, hv, -⟩ := Worker.workBuffered_below sink x j (by omega)
    have hstep : Worker.runBuffered sink x (j :: js)
        = Worker.runBuffered sink (Worker.workBuffered sink x j) js := rfl
    have hsize : (Worker.workBuffered sink x j).worker.GetBufferSize = x.worker.GetBufferSize := by
      rw [hw]; rfl
    have hlen : (Worker.workBuffered sink x j).worker.BufferedEvents.length
        = x.worker.BufferedEvents.length + 1 := by
      rw [hw]; simp
    obtain ⟨iw, is, iv⟩ := ih (Worker.workBuffered sink x j) (by rw [hsize, hlen]; omega)
    rw [hstep, iw, is, iv, hw, hs, hv]
    simp

theorem Worker.workBuffered_penalty {σ : Type} (sink : Sink σ) (x : Scene σ) (job : Job)
    (hp : 1 ≤ x.worker.Penalty) : 1 ≤ (Worker.workBuffered sink x job).worker.Penalty := by
  unfold Worker.workBuffered
  simp only []
  split_ifs
  · exact le_max_left _ _
  · show 1 ≤ x.worker.Penalty * (3 / 2)
    linarith
  · exact hp

theorem Worker.Reachable_penalty (w : Worker) (h : Worker.Reachable w) : 1 ≤ w.Penalty := by
  induction h with
  | start id bufferSize retryAttempt => simp [NewWorker]
  | step sink x job _ ih => exact Worker.workBuffered_penalty sink x job ih

/-! ## The claims on the worker -/

/-- C7: unbuffered worker. When save fails the attempt of the job becomes its prior
value plus one and the job is pushed back onto the job queue exactly when the new
attempt is at most the retry cap (otherwise the queue is unchanged); when save succeeds
the job and the queue are unchanged; in both cases the worker republishes itself to the
idle pool, after exactly one save of the single-record encoding. -/
theorem Worker_workSingle_retry {σ : Type} (sink : Sink σ) (x : Scene σ) (job : Job) :
    ((sink.save x.sink (sink.single_convert job.Event)).1 = false →
        (Worker.workSingle sink x job).2 = { job with Attempt := job.Attempt + 1 }
        ∧ (Worker.workSingle sink x job).1.jobQueue =
            (if job.Attempt + 1 ≤ x.worker.RetryAttempt then
              x.jobQueue ++ [{ job with Attempt := job.Attempt + 1 }]
             else x.jobQueue))
      ∧ ((sink.save x.sink (sink.single_convert job.Event)).1 = true →
        (Worker.workSingle sink x job).2 = job
        ∧ (Worker.workSingle sink x job).1.jobQueue = x.jobQueue)
      ∧ (Worker.workSingle sink x job).1.pool = x.pool ++ [x.worker.ID]
      ∧ (Worker.workSingle sink x job).1.saved = x.saved ++ [sink.single_convert job.Event]
      ∧ (Worker.workSingle sink x job).1.worker = x.worker := by
  unfold Worker.workSingle
  by_cases hs : (sink.save x.sink (sink.single_convert job.Event)).1 = true
  · simp [hs]
  · by_cases hr : job.Attempt + 1 ≤ x.worker.RetryAttempt
    · simp [hs, hr]
    · simp [hs, hr]

set_option maxRecDepth 1000000 in
/-- The witness of C7: retry cap 2 and a failing sink. A job at attempt 1 reappears in
the queue with attempt 2; failing again at attempt 2 it reaches attempt 3 and the queue
stays empty. -/
theorem Worker_workSingle_retry_witness :
    ((Worker.workSingle (scriptedSink false) (testScene 2 [false]) ⟨GetTestEvent 43233, 1⟩).2
          = ⟨GetTestEvent 43233, 2⟩
        ∧ (Worker.workSingle (scriptedSink false) (testScene 2 [false])
            ⟨GetTestEvent 43233, 1⟩).1.jobQueue = [⟨GetTestEvent 43233, 2⟩])
      ∧ ((Worker.workSingle (scriptedSink false) (testScene 2 [false]) ⟨GetTestEvent 43233, 2⟩).2
          = ⟨GetTestEvent 43233, 3⟩
        ∧ (Worker.workSingle (scriptedSink false) (testScene 2 [false])
            ⟨GetTestEvent 43233, 2⟩).1.jobQueue = []) :=
  ⟨(Worker_workSingle_retry (scriptedSink false) (testScene 2 [false])
      ⟨GetTestEvent 43233, 1⟩).1 rfl,
   (Worker_workSingle_retry (scriptedSink false) (testScene 2 [false])
      ⟨GetTestEvent 43233, 2⟩).1 rfl⟩

/-- C8: buffered worker. The effective size is `ceil(base_buffer_size * penalty)`; a
received job appends its record to the end of `buffered_events`, and the sink's save is
called (once, with the batch of the buffer including the new record) exactly when the
buffer has then reached the effective size; below the threshold there is no save and
the buffer grows by exactly the records received, in order. -/
theorem Worker_workBuffered_threshold {σ : Type} (sink : Sink σ) (x : Scene σ) (job : Job) :
    x.worker.GetBufferSize = ⌈(x.worker.BufferSize : ℚ) * x.worker.Penalty⌉₊
      ∧ (Worker.workBuffered sink x job).saved =
          x.saved ++ (if x.worker.GetBufferSize ≤ x.worker.BufferedEvents.length + 1 then
            [sink.batch_convert (x.worker.BufferedEvents ++ [job.Event])] else [])
      ∧ (x.worker.BufferedEvents.length + 1 < x.worker.GetBufferSize →
          (Worker.workBuffered sink x job).worker.BufferedEvents =
              x.worker.BufferedEvents ++ [job.Event]
          ∧ (Worker.workBuffered sink x job).worker.BufferedEvents.length =
              x.worker.BufferedEvents.length + 1
          ∧ (Worker.workBuffered sink x job).saved = x.saved)
      ∧ (∀ jobs : List Job,
          x.worker.BufferedEvents.length + jobs.length < x.worker.GetBufferSize →
          (Worker.runBuffered sink x jobs).worker.BufferedEvents =
              x.worker.BufferedEvents ++ jobs.map (fun j => j.Event)
          ∧ (Worker.runBuffered sink x jobs).worker.BufferedEvents.length =
              x.worker.BufferedEvents.length + jobs.length
          ∧ (Worker.runBuffered sink x jobs).saved = x.saved) := by
  refine ⟨rfl, Worker.workBuffered_saved sink x job, fun h => ?_, fun jobs h => ?_⟩
  · obtain ⟨hw, -, hv, -⟩ := Worker.workBuffered_below sink x job h
    rw [hw]
    exact ⟨rfl, by simp, hv⟩
  · obtain ⟨hw, -, hv⟩ := Worker.runBuffered_below sink jobs x h
    rw [hw]
    exact ⟨rfl, by simp, hv⟩

set_option maxRecDepth 1000000 in
/-- The witness of C8: base 10 and penalty 1.0. Nine jobs bring the buffer to length 9
with no save; the tenth triggers exactly one save; with penalty 1.5 the effective size
is 15. -/
theorem Worker_workBuffered_threshold_witness :
    ((Worker.runBuffered (scriptedSink true) (testScene 2 []) (testJobs 56746535 9)).worker.BufferedEvents
          = (testScene 2 []).worker.BufferedEvents ++ (testJobs 56746535 9).map (fun j => j.Event)
        ∧ (Worker.runBuffered (scriptedSink true) (testScene 2 [])
            (testJobs 56746535 9)).worker.BufferedEvents.length
          = (testScene 2 []).worker.BufferedEvents.length + (testJobs 56746535 9).length
        ∧ (Worker.runBuffered (scriptedSink true) (testScene 2 []) (testJobs 56746535 9)).saved
          = (testScene 2 []).saved)
      ∧ (Worker.workBuffered (scriptedSink true)
          (Worker.runBuffered (scriptedSink true) (testScene 2 []) (testJobs 56746535 9))
          ⟨GetTestEvent 1, 1⟩).saved.length = 1
      ∧ ({ NewWorker 1 10 2 with Penalty := 3 / 2 } : Worker).GetBufferSize = 15 :=
  ⟨(Worker_workBuffered_threshold (scriptedSink true) (testScene 2 [])
      ⟨GetTestEvent 1, 1⟩).2.2.2 (testJobs 56746535 9) (by with_unfolding_all decide),
   by with_unfolding_all decide, by with_unfolding_all decide⟩

/-- C9: buffered worker, a flush attempted in a state with penalty p at least 1.0. If
save succeeds the buffer is empty afterwards and the penalty is `max(1.0, p * 2/3)`; if
save fails the buffer is the sequence of records handed to save, unchanged (so the next
job is appended behind them and they head the next batch), and the penalty is `p * 1.5`.
The penalty stays at least 1.0, and it is at least 1.0 in every reachable worker
state. -/
theorem Worker_flush_outcome {σ : Type} (sink : Sink σ) (x : Scene σ) (job : Job)
    (hp : 1 ≤ x.worker.Penalty)
    (hfull : x.worker.GetBufferSize ≤ x.worker.BufferedEvents.length + 1) :
    (Worker.workBuffered sink x job).saved =
        x.saved ++ [sink.batch_convert (x.worker.BufferedEvents ++ [job.Event])]
      ∧ ((sink.save x.sink (sink.batch_convert (x.worker.BufferedEvents ++ [job.Event]))).1 = true →
          (Worker.workBuffered sink x job).worker.BufferedEvents = []
          ∧ (Worker.workBuffered sink x job).worker.Penalty = max 1 (x.worker.Penalty * (2 / 3)))
      ∧ ((sink.save x.sink (sink.batch_convert (x.worker.BufferedEvents ++ [job.Event]))).1 = false →
          (Worker.workBuffered sink x job).worker.BufferedEvents =
              x.worker.BufferedEvents ++ [job.Event]
          ∧ (Worker.workBuffered sink x job).worker.Penalty = x.worker.Penalty * (3 / 2)
          ∧ ∀ (τ : Type) (sink2 : Sink τ) (y : Scene τ) (job2 : Job),
              y.worker = (Worker.workBuffered sink x job).worker →
              y.worker.GetBufferSize ≤ y.worker.BufferedEvents.length + 1 →
              (Worker.workBuffered sink2 y job2).saved = y.saved ++
                [sink2.batch_convert (x.worker.BufferedEvents ++ [job.Event] ++ [job2.Event])])
      ∧ 1 ≤ (Worker.workBuffered sink x job).worker.Penalty
      ∧ (∀ w : Worker, Worker.Reachable w → 1 ≤ w.Penalty) := by
  have hsaved := Worker.workBuffered_saved sink x job
  rw [if_pos hfull] at hsaved
  have hfull2 : (x.worker.BufferedEvents ++ [job.Event]).length ≥
      ({ x.worker with BufferedEvents := x.worker.BufferedEvents ++ [job.Event] } : Worker).GetBufferSize := by
    simpa [Worker.GetBufferSize] using hfull
  have hfail : (sink.save x.sink (sink.batch_convert (x.worker.BufferedEvents ++ [job.Event]))).1 = false →
      (Worker.workBuffered sink x job).worker.BufferedEvents = x.worker.BufferedEvents ++ [job.Event]
      ∧ (Worker.workBuffered sink x job).worker.Penalty = x.worker.Penalty * (3 / 2) := by
    intro hs
    unfold Worker.workBuffered
    simp only []
    rw [if_pos hfull2]
    simp [hs]
  refine ⟨hsaved, fun hs => ?_, fun hs => ⟨(hfail hs).1, (hfail hs).2, ?_⟩,
    Worker.workBuffered_penalty sink x job hp, Worker.Reachable_penalty⟩
  · unfold Worker.workBuffered
    simp only []
    rw [if_pos hfull2]
    simp [hs]
  · intro τ sink2 y job2 hy hfull3
    have h := Worker.workBuffered_saved sink2 y job2
    rw [if_pos hfull3, hy, (hfail hs).1] at h
    exact h

set_option maxRecDepth 1000000 in
/-- The witness of C9: base 10. The flush at 10 records fails: the 10 records stay and
the penalty is 1.5; four more jobs bring the buffer to 14 with effective size 15; the
flush at 15 records succeeds: the buffer is empty, the penalty 1.0 and the effective
size 10. -/
theorem Worker_flush_outcome_witness :
    ((Worker.workBuffered (scriptedSink true)
          (Worker.runBuffered (scriptedSink true) (testScene 2 [false]) (testJobs 213432 9))
          ⟨GetTestEvent 213441, 1⟩).worker.BufferedEvents
        = (Worker.runBuffered (scriptedSink true) (testScene 2 [false])
            (testJobs 213432 9)).worker.BufferedEvents ++ [GetTestEvent 213441]
      ∧ (Worker.workBuffered (scriptedSink true)
          (Worker.runBuffered (scriptedSink true) (testScene 2 [false]) (testJobs 213432 9))
          ⟨GetTestEvent 213441, 1⟩).worker.Penalty
        = (Worker.runBuffered (scriptedSink true) (testScene 2 [false])
            (testJobs 213432 9)).worker.Penalty * (3 / 2))
      ∧ (Worker.runBuffered (scriptedSink true) (testScene 2 [false])
          (testJobs 213432 14)).worker.BufferedEvents.length = 14
      ∧ (Worker.runBuffered (scriptedSink true) (testScene 2 [false])
          (testJobs 213432 14)).worker.Penalty = 3 / 2
      ∧ (Worker.runBuffered (scriptedSink true) (testScene 2 [false])
          (testJobs 213432 14)).worker.GetBufferSize = 15
      ∧ (Worker.runBuffered (scriptedSink true) (testScene 2 [false])
          (testJobs 213432 15)).worker.BufferedEvents = []
      ∧ (Worker.runBuffered (scriptedSink true) (testScene 2 [false])
          (testJobs 213432 15)).worker.Penalty = 1
      ∧ (Worker.runBuffered (scriptedSink true) (testScene 2 [false])
          (testJobs 213432 15)).worker.GetBufferSize = 10 :=
  by
  have h := (Worker_flush_outcome (scriptedSink true)
    (Worker.runBuffered (scriptedSink true) (testScene 2 [false]) (testJobs 213432 9))
    ⟨GetTestEvent 213441, 1⟩ (by with_unfolding_all decide)
    (by with_unfolding_all decide)).2.2.1 (by with_unfolding_all decide)
  exact ⟨⟨h.1, h.2.1⟩, by with_unfolding_all decide, by with_unfolding_all decide,
    by with_unfolding_all decide, by with_unfolding_all decide, by with_unfolding_all decide,
    by with_unfolding_all decide⟩

/-! ## The calendar arithmetic of `ConvertIsoformat` -/

theorem absDate_eq (abs : Nat) :
    absDate abs =
      (toInt64 (toInt64 ((absYearDay abs).1 : Int) + absoluteZeroYear),
       monthDay (isLeap (toInt64 (toInt64 ((absYearDay abs).1 : Int) + absoluteZeroYear)))
         (absYearDay abs).2) := by
  unfold absDate absYearDay monthDay
  simp only []
  split_ifs <;> rfl

theorem absClock_spec (abs : Nat) :
    (absClock abs).1 < 24 ∧ (absClock abs).2.1 < 60 ∧ (absClock abs).2.2 < 60
      ∧ (absClock abs).1 * 3600 + (absClock abs).2.1 * 60 + (absClock abs).2.2 = abs % 86400 := by
  unfold absClock
  simp only []
  omega

theorem yearDay_digits (D n400 d1 n100 d2 n4 d3 n1 yd : Nat)
    (h1 : n400 = D / 146097) (h2 : d1 = D - 146097 * n400)
    (h3 : n100 = d1 / 36524 - (d1 / 36524) >>> 2) (h4 : d2 = d1 - 36524 * n100)
    (h5 : n4 = d2 / 1461) (h6 : d3 = d2 - 1461 * n4)
    (h7 : n1 = d3 / 365 - (d3 / 365) >>> 2) (h8 : yd = d3 - 365 * n1) :
    D = 146097 * n400 + 36524 * n100 + 1461 * n4 + 365 * n1 + yd
      ∧ n100 ≤ 3 ∧ n4 ≤ 24 ∧ n1 ≤ 3 ∧ yd < 366
      ∧ (n1 < 3 → yd < 365)
      ∧ (n4 = 24 → n100 < 3 → yd < 365)
      ∧ (n100 < 3 → 1461 * n4 + 365 * n1 + yd < 36524) := by
  simp only [Nat.shiftRight_eq_div_pow] at h3 h7
  have b1 : d1 < 146097 := by omega
  have e1 : D = 146097 * n400 + d1 := by omega
  have b2 : n100 ≤ 3 := by omega
  have e2 : d1 = 36524 * n100 + d2 := by omega
  have b3 : d2 ≤ 36524 ∧ (n100 < 3 → d2 < 36524) := by omega
  have b4 : n4 ≤ 24 := by omega
  have e3 : d2 = 1461 * n4 + d3 := by omega
  have b5 : d3 < 1461 ∧ (n4 = 24 → n100 < 3 → d3 < 1460) := by omega
  have b6 : n1 ≤ 3 := by omega
  have e4 : d3 = 365 * n1 + yd := by omega
  have b7 : yd < 366 ∧ (n1 < 3 → yd < 365) ∧ (d3 < 1460 → yd < 365) := by omega
  refine ⟨by omega, b2, b4, b6, b7.1, b7.2.1, fun c2 c3 => b7.2.2 (b5.2 c2 c3), ?_⟩
  intro c
  have := b3.2 c
  omega

theorem yearDay_bounds (D n400 n100 n4 n1 yd y : Nat)
    (hD : D = 146097 * n400 + 36524 * n100 + 1461 * n4 + 365 * n1 + yd)
    (h9 : y = 400 * n400 + 100 * n100 + 4 * n4 + n1)
    (b100 : n100 ≤ 3) (b4 : n4 ≤ 24) (b1 : n1 ≤ 3) (byd : yd < 366)
    (c1 : n1 < 3 → yd < 365) (c2 : n4 = 24 → n100 < 3 → yd < 365)
    (c3 : n100 < 3 → 1461 * n4 + 365 * n1 + yd < 36524)
    (hDlo : 106751991073094 - 719528 ≤ D) (hDhi : D ≤ 106751991073094 + 2932896) :
    292277022399 ≤ y ∧ y ≤ 292277032398 := by
  have hrest : 36524 * n100 + 1461 * n4 + 365 * n1 + yd ≤ 146096 := by omega
  have hn : 730692555 ≤ n400 ∧ n400 ≤ 730692580 := by omega
  by_cases k1 : n400 = 730692555
  · subst k1
    have a1 : n100 = 3 := by omega
    subst a1
    have a2 : n4 = 24 := by omega
    subst a2
    have a3 : n1 = 3 := by omega
    omega
  · by_cases k2 : n400 = 730692580
    · subst k2
      by_cases a1 : n100 = 3
      · subst a1
        by_cases a2 : n4 = 24
        · subst a2
          have a3 : n1 < 3 := by omega
          omega
        · omega
      · omega
    · omega

/-- The year index and the day of the year that `absDate` computes, as digits of the
400-year, 100-year, 4-year and 1-year cycles. -/
theorem absYearDay_digits (abs : Nat) :
    ∃ n400 n100 n4 n1 : Nat,
      (absYearDay abs).1 = 400 * n400 + 100 * n100 + 4 * n4 + n1
      ∧ abs / 86400 = 146097 * n400 + 36524 * n100 + 1461 * n4 + 365 * n1 + (absYearDay abs).2
      ∧ n100 ≤ 3 ∧ n4 ≤ 24 ∧ n1 ≤ 3 ∧ (absYearDay abs).2 < 366
      ∧ (n1 < 3 → (absYearDay abs).2 < 365)
      ∧ (n4 = 24 → n100 < 3 → (absYearDay abs).2 < 365)
      ∧ (n100 < 3 → 1461 * n4 + 365 * n1 + (absYearDay abs).2 < 36524) := by
  unfold absYearDay
  exact ⟨_, _, _, _, rfl, yearDay_digits (abs / 86400) _ _ _ _ _ _ _ _ rfl rfl rfl rfl rfl rfl rfl rfl⟩

theorem daysBeforeYear_digits (n400 n100 n4 n1 : Nat) (Y : Int)
    (hY : Y = 400 * (n400 : Int) + 100 * n100 + 4 * n4 + n1 - 292277022399)
    (b100 : n100 ≤ 3) (b4 : n4 ≤ 24) (b1 : n1 ≤ 3) :
    daysBeforeYear Y = 146097 * (n400 : Int) + 36524 * n100 + 1461 * n4 + 365 * n1
        - 146097 * 730692556
      ∧ (gregorianLeap Y = true ↔ (n1 = 3 ∧ (n4 = 24 → n100 = 3))) := by
  constructor
  · unfold daysBeforeYear
    omega
  · simp only [gregorianLeap, Bool.and_eq_true, Bool.or_eq_true, decide_eq_true_eq, ne_eq]
    omega

set_option maxRecDepth 100000 in
theorem monthDay_spec : ∀ leap : Bool, ∀ yd < 366, (leap = false → yd < 365) →
    1 ≤ (monthDay leap yd).1 ∧ (monthDay leap yd).1 ≤ 12 ∧ 1 ≤ (monthDay leap yd).2
      ∧ (monthDay leap yd).2 ≤ monthLength leap (monthDay leap yd).1
      ∧ daysBeforeMonth leap (monthDay leap yd).1 + (monthDay leap yd).2 = yd + 1 := by
  decide

theorem decimalLoop_small (fuel n : Nat) (acc : Bytes) (h : n < 10) :
    decimalLoop (fuel + 1) n acc = UInt8.ofNat (48 + n) :: acc := by
  simp [decimalLoop, h]

theorem decimalLoop_step (fuel n : Nat) (acc : Bytes) (h : 10 ≤ n) :
    decimalLoop (fuel + 1) n acc = decimalLoop fuel (n / 10) (UInt8.ofNat (48 + n % 10) :: acc) := by
  have h2 : ¬ n < 10 := by omega
  simp [decimalLoop, h2]

theorem byteOf_zero : byteOf '0' = UInt8.ofNat 48 := rfl

theorem appendInt_two (n : Nat) (h : n < 100) : appendInt (n : Int) 2 = twoDigits n := by
  have hneg : ¬ ((n : Int) < 0) := by omega
  unfold appendInt
  simp only [Int.natAbs_ofNat, hneg, if_false, List.nil_append]
  by_cases h1 : n < 10
  · have e : decimal n = [UInt8.ofNat (48 + n)] := by
      unfold decimal; rw [decimalLoop_small _ _ _ h1]
    have e1 : n / 10 % 10 = 0 := by omega
    have e2 : n % 10 = n := by omega
    rw [e]
    simp [twoDigits, e1, e2, byteOf_zero]
  · have e : decimal n = [UInt8.ofNat (48 + n / 10), UInt8.ofNat (48 + n % 10)] := by
      unfold decimal
      have hf : n + 1 = (n - 1) + 1 + 1 := by omega
      rw [hf, decimalLoop_step _ _ _ (by omega), decimalLoop_small _ _ _ (by omega)]
    have e1 : n / 10 % 10 = n / 10 := by omega
    rw [e]
    simp [twoDigits, e1]

theorem appendInt_four (n : Nat) (h : n ≤ 9999) : appendInt (n : Int) 4 = fourDigits n := by
  have hneg : ¬ ((n : Int) < 0) := by omega
  unfold appendInt
  simp only [Int.natAbs_ofNat, hneg, if_false, List.nil_append]
  by_cases h1 : n < 10
  · have e : decimal n = [UInt8.ofNat (48 + n)] := by
      unfold decimal; rw [decimalLoop_small _ _ _ h1]
    have e1 : n / 1000 % 10 = 0 := by omega
    have e2 : n / 100 % 10 = 0 := by omega
    have e3 : n / 10 % 10 = 0 := by omega
    have e4 : n % 10 = n := by omega
    rw [e]
    simp [fourDigits, e1, e2, e3, e4, byteOf_zero, List.replicate]
  by_cases h2 : n < 100
  · have e : decimal n = [UInt8.ofNat (48 + n / 10), UInt8.ofNat (48 + n % 10)] := by
      unfold decimal
      have hf : n + 1 = (n - 1) + 1 + 1 := by omega
      rw [hf, decimalLoop_step _ _ _ (by omega), decimalLoop_small _ _ _ (by omega)]
    have e1 : n / 1000 % 10 = 0 := by omega
    have e2 : n / 100 % 10 = 0 := by omega
    have e3 : n / 10 % 10 = n / 10 := by omega
    rw [e]
    simp [fourDigits, e1, e2, e3, byteOf_zero, List.replicate]
  by_cases h3 : n < 1000
  · have e : decimal n = [UInt8.ofNat (48 + n / 10 / 10), UInt8.ofNat (48 + n / 10 % 10),
        UInt8.ofNat (48 + n % 10)] := by
      unfold decimal
      have hf : n + 1 = (n - 2) + 1 + 1 + 1 := by omega
      rw [hf, decimalLoop_step _ _ _ (by omega), decimalLoop_step _ _ _ (by omega),
        decimalLoop_small _ _ _ (by omega)]
    have e1 : n / 1000 % 10 = 0 := by omega
    have e2 : n / 100 % 10 = n / 10 / 10 := by omega
    rw [e]
    simp [fourDigits, e1, e2, byteOf_zero, List.replicate]
  · have e : decimal n = [UInt8.ofNat (48 + n / 10 / 10 / 10),
        UInt8.ofNat (48 + n / 10 / 10 % 10), UInt8.ofNat (48 + n / 10 % 10),
        UInt8.ofNat (48 + n % 10)] := by
      unfold decimal
      have hf : n + 1 = (n - 3) + 1 + 1 + 1 + 1 := by omega
      rw [hf, decimalLoop_step _ _ _ (by omega), decimalLoop_step _ _ _ (by omega),
        decimalLoop_step _ _ _ (by omega), decimalLoop_small _ _ _ (by omega)]
    have e1 : n / 1000 % 10 = n / 10 / 10 / 10 := by omega
    have e2 : n / 100 % 10 = n / 10 / 10 % 10 := by omega
    rw [e]
    simp [fourDigits, e1, e2]



theorem toInt64_small (n : Int) (h1 : -9223372036854775808 ≤ n) (h2 : n < 9223372036854775808) :
    toInt64 n = n := by
  unfold toInt64
  omega

theorem toUint64_small (n : Nat) : n < 18446744073709551616 → toUint64 (n : Int) = n := by
  intro h
  unfold toUint64
  omega

/-- The date `absDate` computes for an absolute time between the first second of the
year 0000 and the last second of the year 9999: a valid date of the proleptic Gregorian
calendar whose day number is the day number of the absolute time. -/
theorem absDate_civil (abs : Nat)
    (hlo : (106751991073094 - 719528) * 86400 ≤ abs)
    (hhi : abs < (106751991073094 + 2932897) * 86400) :
    ∃ Y M D : Nat, absDate abs = ((Y : Int), M, D) ∧ Y ≤ 9999 ∧ 1 ≤ M ∧ M ≤ 12 ∧ 1 ≤ D
      ∧ D ≤ monthLength (gregorianLeap Y) M
      ∧ daysBeforeYear Y + daysBeforeMonth (gregorianLeap Y) M + ((D : Int) - 1) - 719162
          = ((abs / 86400 : Nat) : Int) - 106751991073094 := by
  obtain ⟨n400, n100, n4, n1, hy, hD, b100, b4, b1, byd, c1, c2, c3⟩ := absYearDay_digits abs
  have hDlo : 106751991073094 - 719528 ≤ abs / 86400 := by omega
  have hDhi : abs / 86400 ≤ 106751991073094 + 2932896 := by omega
  obtain ⟨ylo, yhi⟩ := yearDay_bounds (abs / 86400) n400 n100 n4 n1 (absYearDay abs).2
    (absYearDay abs).1 hD hy b100 b4 b1 byd c1 c2 c3 hDlo hDhi
  obtain ⟨Y, hY⟩ : ∃ Y : Nat, (Y : Int) = ((absYearDay abs).1 : Int) + -292277022399 :=
    ⟨(absYearDay abs).1 - 292277022399, by omega⟩
  have hY9 : Y ≤ 9999 := by omega
  have hYd : (Y : Int) = 400 * (n400 : Int) + 100 * n100 + 4 * n4 + n1 - 292277022399 := by
    omega
  have r1 : -9223372036854775808 ≤ ((absYearDay abs).1 : Int) := by omega
  have r2 : ((absYearDay abs).1 : Int) < 9223372036854775808 := by omega
  have r3 : -9223372036854775808 ≤ ((absYearDay abs).1 : Int) + -292277022399 := by omega
  have r4 : ((absYearDay abs).1 : Int) + -292277022399 < 9223372036854775808 := by omega
  obtain ⟨hdby, hgl⟩ := daysBeforeYear_digits n400 n100 n4 n1 (Y : Int) hYd b100 b4 b1
  have hleap : gregorianLeap (Y : Int) = false → (absYearDay abs).2 < 365 := by
    intro hf
    have hne : ¬ (n1 = 3 ∧ (n4 = 24 → n100 = 3)) := by
      intro h
      have ht := hgl.mpr h
      rewrite [hf] at ht
      exact Bool.false_ne_true ht
    by_cases k1 : n1 < 3
    · exact c1 k1
    · have e1 : n1 = 3 := Nat.le_antisymm b1 (Nat.le_of_not_lt k1)
      by_cases k2 : n4 = 24
      · by_cases k3 : n100 < 3
        · exact c2 k2 k3
        · exact absurd ⟨e1, fun _ => Nat.le_antisymm b100 (Nat.le_of_not_lt k3)⟩ hne
      · exact absurd ⟨e1, fun h => absurd h k2⟩ hne
  obtain ⟨m1, m12, d1, dlen, hmd⟩ := monthDay_spec (gregorianLeap (Y : Int)) (absYearDay abs).2
    byd hleap
  have hsum : daysBeforeYear Y + daysBeforeMonth (gregorianLeap Y)
      (monthDay (gregorianLeap Y) (absYearDay abs).2).1
      + (((monthDay (gregorianLeap Y) (absYearDay abs).2).2 : Int) - 1) - 719162
        = ((abs / 86400 : Nat) : Int) - 106751991073094 := by
    rewrite [hdby]
    omega
  have hyear : toInt64 (toInt64 ((absYearDay abs).1 : Int) + absoluteZeroYear) = (Y : Int) :=
    calc toInt64 (toInt64 ((absYearDay abs).1 : Int) + absoluteZeroYear)
        = toInt64 (((absYearDay abs).1 : Int) + -292277022399) :=
          congrArg (fun t => toInt64 (t + -292277022399)) (toInt64_small _ r1 r2)
      _ = ((absYearDay abs).1 : Int) + -292277022399 := toInt64_small _ r3 r4
      _ = (Y : Int) := hY.symm
  refine ⟨Y, (monthDay (gregorianLeap Y) (absYearDay abs).2).1,
    (monthDay (gregorianLeap Y) (absYearDay abs).2).2, ?_, hY9, m1, m12, d1, dlen, hsum⟩
  have hform := absDate_eq abs
  simp only [hyear] at hform
  exact hform

theorem monthLength_le (leap : Bool) (month : Nat) : monthLength leap month ≤ 31 := by
  unfold monthLength
  split_ifs <;> omega

theorem ConvertIsoformat_civil (env : Env) (at_ : UInt64)
    (h63 : at_.toNat < 9223372036854775808)
    (hlo : -62167219200 ≤ (at_.toNat : Int) + env.zoneOffset at_.toNat)
    (hhi : (at_.toNat : Int) + env.zoneOffset at_.toNat < 253402300800) :
    ∃ Y M D h m s : Nat, Y ≤ 9999 ∧ 1 ≤ M ∧ M ≤ 12 ∧ 1 ≤ D
      ∧ D ≤ monthLength (gregorianLeap Y) M ∧ h < 24 ∧ m < 60 ∧ s < 60
      ∧ ConvertIsoformat env at_ = isoText Y M D h m s
      ∧ civilSeconds Y M D h m s = (at_.toNat : Int) + env.zoneOffset at_.toNat := by
  obtain ⟨abs, habs⟩ : ∃ abs : Nat,
      (abs : Int) = (at_.toNat : Int) + env.zoneOffset at_.toNat + 9223372028715321600 :=
    ⟨((at_.toNat : Int) + env.zoneOffset at_.toNat + 9223372028715321600).toNat, by omega⟩
  have a1 : (106751991073094 - 719528) * 86400 ≤ abs := by omega
  have a2 : abs < (106751991073094 + 2932897) * 86400 := by omega
  have a3 : abs < 18446744073709551616 := by omega
  have s1 : -9223372036854775808 ≤ (at_.toNat : Int) := by omega
  have s2 : (at_.toNat : Int) < 9223372036854775808 := by omega
  obtain ⟨Y, M, D, hdate, hY9, m1, m12, d1, dlen, hsum⟩ := absDate_civil abs a1 a2
  obtain ⟨hh, hm, hs, hclock⟩ := absClock_spec abs
  have hsplit := Nat.div_add_mod abs 86400
  have hD31 := monthLength_le (gregorianLeap Y) M
  have hM : M < 100 := by omega
  have hD : D < 100 := by omega
  have hh2 : (absClock abs).1 < 100 := by omega
  have hm2 : (absClock abs).2.1 < 100 := by omega
  have hs2 : (absClock abs).2.2 < 100 := by omega
  have hcivil : civilSeconds Y M D (absClock abs).1 (absClock abs).2.1 (absClock abs).2.2
      = (at_.toNat : Int) + env.zoneOffset at_.toNat := by
    unfold civilSeconds
    omega
  have hsec : toInt64 (at_.toNat : Int) = at_.toNat := toInt64_small _ s1 s2
  have hC : unixToInternal + internalToAbsolute = 9223372028715321600 := by decide
  have habs2 : toUint64 ((at_.toNat : Int) + env.zoneOffset at_.toNat
      + 9223372028715321600) = abs :=
    (congrArg toUint64 habs.symm).trans (toUint64_small abs a3)
  refine ⟨Y, M, D, (absClock abs).1, (absClock abs).2.1, (absClock abs).2.2, hY9, m1, m12, d1,
    dlen, hh, hm, hs, ?_, hcivil⟩
  unfold ConvertIsoformat
  simp only [hsec, hC, habs2, hdate, appendInt_four Y hY9, appendInt_two M hM,
    appendInt_two D hD, appendInt_two _ hh2, appendInt_two _ hm2, appendInt_two _ hs2]
  rfl

theorem isoText_length (Y M D h m s : Nat) : (isoText Y M D h m s).length = 19 := by
  simp [isoText, fourDigits, twoDigits]

/-! ## The claim on record construction -/

set_option maxRecDepth 1000000 in
/-- C11, as stated, fails: in UTC the epoch value 253402300800 is formatted with a
five-digit year, 20 characters; and the epoch value 2^64 - 1 is converted to the signed
value -1 and formatted as the second before 1970. -/
theorem ConvertIsoformat_long_year :
    ConvertIsoformat testEnv 253402300800 = bytesOf "10000-01-01T00:00:00"
      ∧ (ConvertIsoformat testEnv 253402300800).length = 20
      ∧ ConvertIsoformat testEnv 18446744073709551615 = bytesOf "1969-12-31T23:59:59" := by
  decide

/-- C11, amended: `NewEvent` copies device_id, client_id, session, system_version,
product_version, system and product_git_hash from the collection and nr, event, user_id,
ip, parameters and is_testing from the payload unchanged, and sets `at` to
`ConvertIsoformat(payload.at)`; and for every epoch-seconds value below 2^63 whose local
time (the value plus the zone offset in effect) lies in the years 0000 to 9999,
`ConvertIsoformat` returns the 19 characters `YYYY-MM-DDTHH:MM:SS` of a valid civil date
and time of day that denotes that instant in the process's time zone. -/
theorem NewEvent_fields_and_isoformat (env : Env) (c : Collection) (payload : Payload) :
    ((NewEvent env c payload).DeviceID = c.DeviceId
        ∧ (NewEvent env c payload).ClientID = c.ClientId
        ∧ (NewEvent env c payload).Session = c.Session
        ∧ (NewEvent env c payload).SystemVersion = c.SystemVersion
        ∧ (NewEvent env c payload).ProductVersion = c.ProductVersion
        ∧ (NewEvent env c payload).System = c.System
        ∧ (NewEvent env c payload).ProductGitHash = c.ProductGitHash
        ∧ (NewEvent env c payload).Nr = payload.Nr
        ∧ (NewEvent env c payload).Event = payload.Event
        ∧ (NewEvent env c payload).UserID = payload.UserId
        ∧ (NewEvent env c payload).IP = payload.Ip
        ∧ (NewEvent env c payload).Parameters = payload.Parameters
        ∧ (NewEvent env c payload).IsTesting = payload.IsTesting
        ∧ (NewEvent env c payload).At = ConvertIsoformat env payload.At)
      ∧ (∀ at_ : UInt64, at_.toNat < 9223372036854775808 →
          -62167219200 ≤ (at_.toNat : Int) + env.zoneOffset at_.toNat →
          (at_.toNat : Int) + env.zoneOffset at_.toNat < 253402300800 →
          (ConvertIsoformat env at_).length = 19
          ∧ ∃ Y M D h m s : Nat, Y ≤ 9999 ∧ 1 ≤ M ∧ M ≤ 12 ∧ 1 ≤ D
              ∧ D ≤ monthLength (gregorianLeap Y) M ∧ h < 24 ∧ m < 60 ∧ s < 60
              ∧ ConvertIsoformat env at_ = isoText Y M D h m s
              ∧ civilSeconds Y M D h m s = (at_.toNat : Int) + env.zoneOffset at_.toNat) := by
  refine ⟨⟨rfl, rfl, rfl, rfl, rfl, rfl, rfl, rfl, rfl, rfl, rfl, rfl, rfl, rfl⟩, ?_⟩
  intro at_ h63 hlo hhi
  obtain ⟨Y, M, D, h, m, s, hY, m1, m12, d1, dlen, hh, hm, hs, htext, hciv⟩ :=
    ConvertIsoformat_civil env at_ h63 hlo hhi
  refine ⟨?_, Y, M, D, h, m, s, hY, m1, m12, d1, dlen, hh, hm, hs, htext, hciv⟩
  rewrite [htext]
  exact isoText_length Y M D h m s

set_option maxRecDepth 1000000 in
/-- The witness of C11 (amended): the record of the worker tests. The payload's epoch
value 1454684704 gives, in UTC, the 19 characters `2016-02-05T15:05:04`, and that civil
time denotes the instant 1454684704. -/
theorem NewEvent_fields_and_isoformat_witness :
    (NewEvent testEnv testCollection testPayload).At = ConvertIsoformat testEnv testPayload.At
      ∧ (ConvertIsoformat testEnv 1454684704).length = 19
      ∧ ConvertIsoformat testEnv 1454684704 = bytesOf "2016-02-05T15:05:04"
      ∧ isoText 2016 2 5 15 5 4 = bytesOf "2016-02-05T15:05:04"
      ∧ civilSeconds 2016 2 5 15 5 4 = 1454684704 + testEnv.zoneOffset 1454684704 :=
  ⟨(NewEvent_fields_and_isoformat testEnv testCollection testPayload).1.2.2.2.2.2.2.2.2.2.2.2.2.2,
   ((NewEvent_fields_and_isoformat testEnv testCollection testPayload).2 1454684704
      (by decide) (by decide) (by decide)).1,
   by decide, by decide, by decide⟩

end Hamustro
